import Mathlib

/-!
Verification development for the ultrathink documentation toolkit
(`docs/ultrathink/...`): a shallow embedding, in Lean, of the API
signature-hashing, diffing, change-classification, version-tracking and
stub-generation components, together with theorems about the behaviour of
the embedded functions.

Python dictionaries are modelled as association lists in insertion order
(`JsonEntries`); JSON-serialisable Python values are modelled by the
`Json` type below.  Python `int` is modelled by `Int`; floats do not occur
in the modelled code paths.  Exceptions are modelled by `Except PyErr`.
-/

/-! ## String utilities

Python string operations are modelled over the underlying character list
(`String.data`) so that every function reduces inside the kernel.
Python's `str.strip` strips a slightly larger whitespace set than
`Char.isWhitespace` (e.g. vertical tab); the difference is irrelevant to
the texts handled here.
-/

/-- Model of Python `str.lower` (per-character lowercasing). -/
def pyLower (s : String) : String := String.mk (s.data.map Char.toLower)

/-- Model of Python `needle in hay` on strings: substring containment. -/
def strContainsSub (hay needle : String) : Bool :=
  hay.data.tails.any (fun t => needle.data.isPrefixOf t)

/-- Model of Python `s.startswith(p)`. -/
def pyStartsWith (s p : String) : Bool := p.data.isPrefixOf s.data

/-- Model of Python `s.endswith(p)`. -/
def pyEndsWith (s p : String) : Bool := p.data.isSuffixOf s.data

/-- Model of Python `s.strip()` (leading and trailing whitespace removed). -/
def pyStrip (s : String) : String :=
  String.mk (((s.data.dropWhile Char.isWhitespace).reverse.dropWhile
    Char.isWhitespace).reverse)

/-- Strict lexicographic comparison of character lists by code point,
modelling Python string `<`. -/
def listCharLt : List Char → List Char → Bool
  | [], [] => false
  | [], _ :: _ => true
  | _ :: _, [] => false
  | a :: as, b :: bs =>
    if a.toNat < b.toNat then true
    else if b.toNat < a.toNat then false
    else listCharLt as bs

/-- Non-strict string comparison by code point (`a <= b` in Python). -/
def pyStrLe (a b : String) : Bool := !(listCharLt b.data a.data)

/-- Model of Python `sorted` on a list of strings (stable sort, code-point
order). -/
def sortStrings (l : List String) : List String :=
  List.insertionSort (fun a b => pyStrLe a b = true) l

/-- Sort a list of pairs by their first (string) component, modelling the
`sort_keys=True` key ordering of `json.dumps`. -/
def sortPairsStr (l : List (String × String)) : List (String × String) :=
  List.insertionSort (fun a b => pyStrLe a.1 b.1 = true) l

/-- Model of Python `sorted` on a list of integers. -/
def sortInts (l : List Int) : List Int :=
  List.insertionSort (fun a b => a ≤ b) l

/-! ## JSON values

`Json` models the JSON-serialisable Python values flowing through the
toolkit.  Objects carry their entries in insertion order, as Python dicts
do; `JsonList`/`JsonEntries` are a mutual encoding of nested lists so that
all recursions are structural (and hence compute inside the kernel). -/

mutual
inductive Json where
  | null
  | bool (b : Bool)
  | num (n : Int)
  | str (s : String)
  | arr (items : JsonList)
  | obj (entries : JsonEntries)
deriving DecidableEq, Repr
inductive JsonList where
  | nil
  | cons (head : Json) (tail : JsonList)
deriving DecidableEq, Repr
inductive JsonEntries where
  | nil
  | cons (key : String) (value : Json) (tail : JsonEntries)
deriving DecidableEq, Repr
end

def JsonList.toList : JsonList → List Json
  | .nil => []
  | .cons x t => x :: t.toList

def JsonList.ofList : List Json → JsonList
  | [] => .nil
  | x :: t => .cons x (ofList t)

def JsonEntries.toList : JsonEntries → List (String × Json)
  | .nil => []
  | .cons k v t => (k, v) :: t.toList

def JsonEntries.ofList : List (String × Json) → JsonEntries
  | [] => .nil
  | (k, v) :: t => .cons k v (ofList t)

def JsonEntries.keys : JsonEntries → List String
  | .nil => []
  | .cons k _ t => k :: t.keys

/-- First-match lookup, the model of Python dict indexing (dict keys are
unique in Python, so first match is the only match). -/
def JsonEntries.lookup (k : String) : JsonEntries → Option Json
  | .nil => none
  | .cons k₁ v t => if k₁ = k then some v else t.lookup k

def JsonEntries.hasKey (k : String) : JsonEntries → Bool
  | .nil => false
  | .cons k₁ _ t => k₁ == k || t.hasKey k

def JsonEntries.length : JsonEntries → Nat
  | .nil => 0
  | .cons _ _ t => t.length + 1

/-- All keys distinct (always true for a value modelling a Python dict). -/
def JsonEntries.keysNodupB : JsonEntries → Bool
  | .nil => true
  | .cons k _ t => !(t.hasKey k) && t.keysNodupB

def Json.mkObj (l : List (String × Json)) : Json := .obj (JsonEntries.ofList l)

def Json.mkArr (l : List Json) : Json := .arr (JsonList.ofList l)

/-- Model of Python truthiness for the modelled values. -/
def Json.truthy : Json → Bool
  | .null => false
  | .bool b => b
  | .num n => n != 0
  | .str s => s != ""
  | .arr .nil => false
  | .arr (.cons _ _) => true
  | .obj .nil => false
  | .obj (.cons _ _ _) => true

/-! ## Canonical JSON serialisation

Model of `json.dumps(x, sort_keys=True, separators=(",", ":"))` as used in
`signature_hasher.py` (`_create_element_hash`).  String escaping follows
the default `ensure_ascii=True` encoder (control and non-ASCII characters
escaped as `\uXXXX`, astral code points as surrogate pairs). -/

def hexDigitChar (n : Nat) : Char :=
  Char.ofNat (if n < 10 then 48 + n else 87 + n)

def hex4 (n : Nat) : String :=
  String.mk [hexDigitChar (n / 4096 % 16), hexDigitChar (n / 256 % 16),
    hexDigitChar (n / 16 % 16), hexDigitChar (n % 16)]

def escapeJsonChar (c : Char) : String :=
  if c = '"' then "\\\""
  else if c = '\\' then "\\\\"
  else if c = '\n' then "\\n"
  else if c = '\t' then "\\t"
  else if c = '\r' then "\\r"
  else if c.toNat = 8 then "\\b"
  else if c.toNat = 12 then "\\f"
  else if c.toNat < 32 ∨ 126 < c.toNat then
    if c.toNat < 65536 then "\\u" ++ hex4 c.toNat
    else
      let v := c.toNat - 65536
      "\\u" ++ hex4 (55296 + v / 1024) ++ "\\u" ++ hex4 (56320 + v % 1024)
  else String.mk [c]

def jsonQuote (s : String) : String :=
  "\"" ++ String.join (s.data.map escapeJsonChar) ++ "\""

mutual
/-- Model of `json.dumps(·, sort_keys=True, separators=(",", ":"))`:
object entries are serialised in sorted key order, so the output is
independent of dict insertion order. -/
def Json.dumps : Json → String
  | .null => "null"
  | .bool true => "true"
  | .bool false => "false"
  | .num n => toString n
  | .str s => jsonQuote s
  | .arr xs => "[" ++ String.intercalate "," xs.dumpsList ++ "]"
  | .obj es =>
    "\x7b" ++ String.intercalate ","
      ((sortPairsStr es.dumpsEntries).map
        (fun kv => jsonQuote kv.1 ++ ":" ++ kv.2)) ++ "\x7d"
def JsonList.dumpsList : JsonList → List String
  | .nil => []
  | .cons x t => x.dumps :: t.dumpsList
def JsonEntries.dumpsEntries : JsonEntries → List (String × String)
  | .nil => []
  | .cons k v t => (k, v.dumps) :: t.dumpsEntries
end

/-! ## Content equivalence of JSON values

`Json.equiv` identifies two values exactly when they denote the same
Python data up to dict insertion order: objects must have distinct keys,
the same number of entries, and pointwise-equivalent values at equal
keys.  This is the formal reading of "identical normalized content" in
the hash-determinism property of the signature hasher. -/

mutual
def Json.equiv : Json → Json → Bool
  | .null, .null => true
  | .bool a, .bool b => a == b
  | .num a, .num b => a == b
  | .str a, .str b => a == b
  | .arr xs, .arr ys => xs.equivList ys
  | .obj es, .obj fs =>
    es.keysNodupB && fs.keysNodupB && (es.length == fs.length) &&
      JsonEntries.equivEntries es fs
  | _, _ => false
def JsonList.equivList : JsonList → JsonList → Bool
  | .nil, .nil => true
  | .cons x xs, .cons y ys => x.equiv y && xs.equivList ys
  | _, _ => false
def JsonEntries.equivEntries : JsonEntries → JsonEntries → Bool
  | .nil, _ => true
  | .cons k v t, fs =>
    (match fs.lookup k with
     | some w => v.equiv w
     | none => false) && JsonEntries.equivEntries t fs
end

/-! ## Python exception and primitive models -/

/-- The exception classes raised by the modelled code paths. -/
inductive PyErr where
  | attributeError (m : String)
  | typeError (m : String)
  | keyError (m : String)
  | valueError (m : String)
  | integrityError (m : String)
deriving DecidableEq, Repr

instance {ε α : Type} [DecidableEq ε] [DecidableEq α] : DecidableEq (Except ε α) :=
  fun a b =>
  match a, b with
  | .ok x, .ok y =>
    if h : x = y then .isTrue (h ▸ rfl) else .isFalse (fun hh => h (Except.ok.inj hh))
  | .error x, .error y =>
    if h : x = y then .isTrue (h ▸ rfl) else .isFalse (fun hh => h (Except.error.inj hh))
  | .ok _, .error _ => .isFalse (fun hh => Except.noConfusion hh)
  | .error _, .ok _ => .isFalse (fun hh => Except.noConfusion hh)

/-- Model of Python `x.get(k, default)`: only dicts have `.get`; any other
value raises `AttributeError`. -/
def pyGet (j : Json) (k : String) (d : Json) : Except PyErr Json :=
  match j with
  | .obj es => .ok ((es.lookup k).getD d)
  | _ => .error (.attributeError "get")

/-- Model of Python `k in x`: key test for dicts, substring test for
strings, membership for lists, `TypeError` otherwise. -/
def pyIn (k : String) (j : Json) : Except PyErr Bool :=
  match j with
  | .obj es => .ok (es.hasKey k)
  | .str s => .ok (strContainsSub s k)
  | .arr xs => .ok (xs.toList.contains (.str k))
  | _ => .error (.typeError "argument is not iterable")

/-- Model of Python `x[k]` for a string key: dict indexing raises
`KeyError` on a missing key; non-dict values raise `TypeError`. -/
def pyIndex (j : Json) (k : String) : Except PyErr Json :=
  match j with
  | .obj es =>
    match es.lookup k with
    | some v => .ok v
    | none => .error (.keyError k)
  | _ => .error (.typeError "indices must be integers")

/-- Model of Python `x.items()` (also used for `.keys()` driven loops):
only dicts have it. -/
def pyItems (j : Json) : Except PyErr (List (String × Json)) :=
  match j with
  | .obj es => .ok es.toList
  | _ => .error (.attributeError "items")

/-- Model of Python `len(x)` for the container values that occur here. -/
def pyLen (j : Json) : Except PyErr Int :=
  match j with
  | .obj es => .ok es.length
  | .arr xs => .ok xs.toList.length
  | .str s => .ok s.data.length
  | _ => .error (.typeError "object has no len")

mutual
/-- Model of Python `repr` for the modelled values (string escaping inside
`repr` is omitted; no claim depends on it). -/
def pyRepr : Json → String
  | .null => "None"
  | .bool true => "True"
  | .bool false => "False"
  | .num n => toString n
  | .str s => "'" ++ s ++ "'"
  | .arr xs => "[" ++ String.intercalate ", " xs.pyReprList ++ "]"
  | .obj es => "\x7b" ++ String.intercalate ", " es.pyReprEntries ++ "\x7d"
def JsonList.pyReprList : JsonList → List String
  | .nil => []
  | .cons x t => pyRepr x :: t.pyReprList
def JsonEntries.pyReprEntries : JsonEntries → List String
  | .nil => []
  | .cons k v t => ("'" ++ k ++ "': " ++ pyRepr v) :: t.pyReprEntries
end

/-- Model of Python `str(x)` (and f-string conversion). -/
def pyStr : Json → String
  | .str s => s
  | v => pyRepr v

/-- Model of Python `sorted(x)` for the shapes that occur in the hasher and
differ: homogeneous string or integer lists sort; iterating a string yields
its characters; iterating a dict yields its keys; anything else is
modelled as the `TypeError` Python raises on non-iterables or unorderable
mixes (heterogeneous numeric/bool mixes, which Python would order, are
conservatively modelled as errors as well — they do not occur in extractor
output). -/
def pySorted (v : Json) : Except PyErr Json :=
  match v with
  | .arr xs =>
    let l := xs.toList
    match l.mapM (fun j => match j with | Json.str s => some s | _ => none) with
    | some strs => .ok (Json.mkArr ((sortStrings strs).map Json.str))
    | none =>
      match l.mapM (fun j => match j with | Json.num n => some n | _ => none) with
      | some ns => .ok (Json.mkArr ((sortInts ns).map Json.num))
      | none => .error (.typeError "unorderable types in sorted")
  | .str s => .ok (Json.mkArr ((sortStrings (s.data.map (fun c => String.mk [c]))).map Json.str))
  | .obj es => .ok (Json.mkArr ((sortStrings es.keys).map Json.str))
  | _ => .error (.typeError "object is not iterable")

/-! ## Signature hasher (`introspection/signature_hasher.py`)

`SignatureHasher` is embedded with its `sensitivity_level` as an explicit
first argument (the Python default, used by `APIDiffer`, is `"strict"`). -/

/-- Model of `SignatureHasher._extract_doc_summary`: first line of the
stripped docstring, cut at the first sentence-ending punctuation,
stripped again. -/
def extractDocSummary (docstring : String) : String :=
  if docstring = "" then ""
  else
    let stripped := pyStrip docstring
    let firstLine := pyStrip (String.mk (stripped.data.takeWhile (fun c => c != '\n')))
    pyStrip (String.mk (firstLine.data.takeWhile
      (fun c => !(c == '.' || c == '!' || c == '?'))))

/-- `_extract_doc_summary` applied to a truthy `doc` value: Python would
raise `AttributeError` calling `.strip()` on a non-string. -/
def extractDocSummaryE (doc : Json) : Except PyErr String :=
  match doc with
  | .str s => .ok (extractDocSummary s)
  | _ => .error (.attributeError "strip")

/-- Model of `SignatureHasher._normalize_methods`. -/
def normalizeMethodsE (methods : Json) : Except PyErr Json := do
  let its ← pyItems methods
  let norm ← its.mapM (fun kv => do
    let md := kv.2
    let base := [("name", Json.str kv.1)]
    let hasSig ← pyIn "signature" md
    let base ← (if hasSig then do
        let s ← pyIndex md "signature"
        pure (base ++ [("signature", s)])
      else pure base)
    let doc ← pyGet md "doc" .null
    let base ← (if doc.truthy then do
        let ds ← extractDocSummaryE doc
        pure (base ++ [("doc_summary", Json.str ds)])
      else pure base)
    pure (kv.1, Json.mkObj base))
  pure (Json.mkObj norm)

/-- Model of `SignatureHasher._normalize_properties`. -/
def normalizePropertiesE (properties : Json) : Except PyErr Json := do
  let its ← pyItems properties
  let norm ← its.mapM (fun kv => do
    let base := [("name", Json.str kv.1)]
    let doc ← pyGet kv.2 "doc" .null
    let base ← (if doc.truthy then do
        let ds ← extractDocSummaryE doc
        pure (base ++ [("doc_summary", Json.str ds)])
      else pure base)
    pure (kv.1, Json.mkObj base))
  pure (Json.mkObj norm)

/-- Model of `SignatureHasher._normalize_parameters`. -/
def normalizeParametersE (parameters : Json) : Except PyErr Json := do
  let its ← pyItems parameters
  let norm ← its.mapM (fun kv => do
    let pd := kv.2
    let kind ← pyGet pd "kind" (.str "unknown")
    let hasDefault ← pyGet pd "has_default" (.bool false)
    let base := [("name", Json.str kv.1), ("kind", kind), ("has_default", hasDefault)]
    let ann ← pyGet pd "annotation" .null
    let base ← (if ann.truthy then do
        let a ← pyIndex pd "annotation"
        pure (base ++ [("annotation", a)])
      else pure base)
    let dflt ← pyGet pd "default" .null
    let base := (if dflt != Json.null then
        base ++ [("default",
          match dflt with
          | Json.str s => Json.str s
          | v => Json.str (pyStr v))]
      else base)
    pure (kv.1, Json.mkObj base))
  pure (Json.mkObj norm)

/-- Model of `SignatureHasher._normalize_class_data`. -/
def normalizeClassE (sensitivityLevel className : String) (cd : JsonEntries) :
    Except PyErr Json := do
  let base := [("name", Json.str className), ("type", Json.str "class")]
  let base ← (if cd.hasKey "base_classes" then do
      let v ← pySorted ((cd.lookup "base_classes").getD .null)
      pure (base ++ [("base_classes", v)])
    else pure base)
  let base := (if cd.hasKey "mro" then
      base ++ [("mro", (cd.lookup "mro").getD .null)]
    else base)
  if sensitivityLevel = "strict" then do
    let methods ← normalizeMethodsE ((cd.lookup "methods").getD (Json.mkObj []))
    let classMethods ← normalizeMethodsE ((cd.lookup "class_methods").getD (Json.mkObj []))
    let staticMethods ← normalizeMethodsE ((cd.lookup "static_methods").getD (Json.mkObj []))
    let props ← normalizePropertiesE ((cd.lookup "properties").getD (Json.mkObj []))
    let base := base ++ [("methods", methods), ("class_methods", classMethods),
      ("static_methods", staticMethods), ("properties", props)]
    let doc := (cd.lookup "doc").getD .null
    let base ← (if doc.truthy then do
        let ds ← extractDocSummaryE doc
        pure (base ++ [("doc_summary", Json.str ds)])
      else pure base)
    pure (Json.mkObj base)
  else if sensitivityLevel = "moderate" then do
    let sigMap := fun (v : Json) => do
      let its ← pyItems v
      let sigs ← its.mapM (fun kv => do
        let s ← pyGet kv.2 "signature" (.str "unknown")
        pure (kv.1, s))
      pure (Json.mkObj sigs)
    let m1 ← sigMap ((cd.lookup "methods").getD (Json.mkObj []))
    let m2 ← sigMap ((cd.lookup "class_methods").getD (Json.mkObj []))
    let m3 ← sigMap ((cd.lookup "static_methods").getD (Json.mkObj []))
    pure (Json.mkObj (base ++ [("method_signatures", m1),
      ("class_method_signatures", m2), ("static_method_signatures", m3)]))
  else do
    let keyNames := fun (v : Json) =>
      match v with
      | Json.obj es => Except.ok (Json.mkArr ((sortStrings es.keys).map Json.str))
      | _ => Except.error (PyErr.attributeError "keys")
    let n1 ← keyNames ((cd.lookup "methods").getD (Json.mkObj []))
    let n2 ← keyNames ((cd.lookup "class_methods").getD (Json.mkObj []))
    let n3 ← keyNames ((cd.lookup "static_methods").getD (Json.mkObj []))
    pure (Json.mkObj (base ++ [("method_names", n1),
      ("class_method_names", n2), ("static_method_names", n3)]))

/-- Model of `SignatureHasher._normalize_function_data`. -/
def normalizeFunctionE (sensitivityLevel funcName : String) (fd : JsonEntries) :
    Except PyErr Json := do
  let base := [("name", Json.str funcName), ("type", (fd.lookup "type").getD (.str "function"))]
  let base := (if fd.hasKey "signature" then
      base ++ [("signature", (fd.lookup "signature").getD .null)]
    else base)
  if sensitivityLevel = "strict" then do
    let base ← (if fd.hasKey "parameters" then do
        let ps ← normalizeParametersE ((fd.lookup "parameters").getD .null)
        pure (base ++ [("parameters", ps)])
      else pure base)
    let base := (if fd.hasKey "return_annotation" then
        base ++ [("return_annotation", (fd.lookup "return_annotation").getD .null)]
      else base)
    let doc := (fd.lookup "doc").getD .null
    let base ← (if doc.truthy then do
        let ds ← extractDocSummaryE doc
        pure (base ++ [("doc_summary", Json.str ds)])
      else pure base)
    let base := base ++ [("is_async", (fd.lookup "is_async").getD (.bool false)),
      ("is_generator", (fd.lookup "is_generator").getD (.bool false))]
    pure (Json.mkObj base)
  else if sensitivityLevel = "moderate" then do
    let base ← (if fd.hasKey "parameters" then do
        let its ← pyItems ((fd.lookup "parameters").getD .null)
        let tys ← its.mapM (fun kv => do
          let a ← pyGet kv.2 "annotation" (.str "Any")
          pure (kv.1, a))
        pure (base ++ [("parameter_types", Json.mkObj tys)])
      else pure base)
    let base := (if fd.hasKey "return_annotation" then
        base ++ [("return_annotation", (fd.lookup "return_annotation").getD .null)]
      else base)
    pure (Json.mkObj base)
  else pure (Json.mkObj base)

/-- Model of `SignatureHasher._normalize_module_data`. -/
def normalizeModuleE (sensitivityLevel moduleName : String) (md : JsonEntries) :
    Except PyErr Json := do
  let base := [("name", Json.str moduleName), ("type", Json.str "module")]
  if sensitivityLevel = "strict" then do
    let base ← (if md.hasKey "all" then do
        let v ← pySorted ((md.lookup "all").getD .null)
        pure (base ++ [("all", v)])
      else pure base)
    let base ← (if md.hasKey "members" then do
        let v ← pySorted ((md.lookup "members").getD .null)
        pure (base ++ [("members", v)])
      else pure base)
    let doc := (md.lookup "doc").getD .null
    let base ← (if doc.truthy then do
        let ds ← extractDocSummaryE doc
        pure (base ++ [("doc_summary", Json.str ds)])
      else pure base)
    pure (Json.mkObj base)
  else if sensitivityLevel = "moderate" then do
    let base ← (if md.hasKey "all" then do
        let v ← pySorted ((md.lookup "all").getD .null)
        pure (base ++ [("all", v)])
      else pure base)
    pure (Json.mkObj base)
  else pure (Json.mkObj base)

/-- Model of `SignatureHasher._normalize_variable_data`. -/
def normalizeVariable (varName : String) (vd : JsonEntries) : Json :=
  Json.mkObj [("name", .str varName), ("type", (vd.lookup "type").getD (.str "variable"))]

/-- Model of `SignatureHasher._normalize_element_data`: dispatch on the
element's declared `type`.  A non-dict element raises `AttributeError` at
the initial `element_data.get("type", "unknown")`. -/
def normalizeElementDataE (sensitivityLevel elementName : String) (elementData : Json) :
    Except PyErr Json :=
  match elementData with
  | .obj es =>
    let elementType := (es.lookup "type").getD (.str "unknown")
    if elementType = .str "class" then normalizeClassE sensitivityLevel elementName es
    else if elementType = .str "function" ∨ elementType = .str "method" then
      normalizeFunctionE sensitivityLevel elementName es
    else if elementType = .str "module" then normalizeModuleE sensitivityLevel elementName es
    else .ok (normalizeVariable elementName es)
  | _ => .error (.attributeError "get")

/-- Model of `hashlib.sha256(json_str.encode("utf-8")).hexdigest()`.  The
digest is a fixed deterministic function of the serialised string; every
claim about the hasher relies only on that determinism and never on the
concrete SHA-256 output, so the digest is modelled as a tagged copy of its
input. -/
def sha256Hex (s : String) : String := "sha256(" ++ s ++ ")"

/-- Model of `SignatureHasher._create_element_hash`: canonical sorted-key
JSON serialisation of the normalized record, then the digest. -/
def createElementHashE (sensitivityLevel elementName : String) (elementData : Json) :
    Except PyErr String := do
  let hashData ← normalizeElementDataE sensitivityLevel elementName elementData
  pure (sha256Hex hashData.dumps)

/-- The per-element `try/except` of `hash_api_signature`: a failing element
gets the sentinel hash `"error"`. -/
def elementHashOrError (sensitivityLevel elementName : String) (elementData : Json) : String :=
  match createElementHashE sensitivityLevel elementName elementData with
  | .ok h => h
  | .error _ => "error"

/-- Model of `SignatureHasher.hash_api_signature`: one hash (or the
`"error"` sentinel) per element of `api_data["public_api"]`.  `api_data`
is a dict per the function's signature; a non-dict `public_api` value
raises at the `.items()` call, as in Python. -/
def hashApiSignatureE (sensitivityLevel : String) (apiData : JsonEntries) :
    Except PyErr (List (String × String)) := do
  let publicApi := (apiData.lookup "public_api").getD (Json.mkObj [])
  let its ← pyItems publicApi
  pure (its.map (fun kv => (kv.1, elementHashOrError sensitivityLevel kv.1 kv.2)))

/-! ## Signature comparison (`compare_signatures`) -/

structure SigChangeTotals where
  total_changes : Nat
  breaking_changes : Nat
  non_breaking_changes : Nat
deriving DecidableEq, Repr

structure SignatureChanges where
  added : List String
  removed : List String
  modified : List String
  unchanged : List String
  summary : SigChangeTotals
deriving DecidableEq, Repr

/-- Model of `SignatureHasher.compare_signatures`, polymorphic in the hash
value type (Python compares the dict values with `!=`; the differ applies
it to the loaded, untyped `signature_hashes` values). -/
def compareSignatures {β : Type} [DecidableEq β]
    (oldHashes newHashes : List (String × β)) : SignatureChanges :=
  let oldElements := (oldHashes.map Prod.fst).dedup
  let newElements := (newHashes.map Prod.fst).dedup
  let added := sortStrings (newElements.filter (fun k => k ∉ oldElements))
  let removed := sortStrings (oldElements.filter (fun k => k ∉ newElements))
  let common := oldElements.filter (fun k => k ∈ newElements)
  let modified := sortStrings (common.filter (fun k => oldHashes.lookup k ≠ newHashes.lookup k))
  let unchanged := sortStrings (common.filter (fun k => oldHashes.lookup k = newHashes.lookup k))
  { added := added, removed := removed, modified := modified, unchanged := unchanged,
    summary := { total_changes := added.length + removed.length + modified.length,
                 breaking_changes := removed.length + modified.length,
                 non_breaking_changes := added.length } }

/-! ## Diff structures (`diffing/api_differ.py`)

The per-category dicts built by `_compare_api_structures`,
`_compare_documentation`, `_analyze_breaking_changes` and
`_generate_summary` are embedded as records; element-keyed dicts become
association lists. -/

structure ValueChange where
  old : Json
  new : Json
deriving DecidableEq, Repr

/-- Per-parameter modification record (`param_diff` in
`_compare_function_changes`): one optional old/new pair per compared
field; Python's dict keys `"annotation"`, `"default"`, `"kind"`. -/
structure ParamFieldDiffs where
  annChange : Option ValueChange
  defaultChange : Option ValueChange
  kindChange : Option ValueChange
deriving DecidableEq, Repr

structure ParamChangeSet where
  added_parameters : List String
  removed_parameters : List String
  modified_parameters : List (String × ParamFieldDiffs)
deriving DecidableEq, Repr

structure InheritanceChange where
  added_bases : List Json
  removed_bases : List Json
deriving DecidableEq, Repr

structure ApiChanges where
  type_changes : List (String × ValueChange)
  module_changes : List (String × ValueChange)
  inheritance_changes : List (String × InheritanceChange)
  parameter_changes : List (String × ParamChangeSet)
  return_type_changes : List (String × ValueChange)
deriving DecidableEq, Repr

structure DocModDiff where
  raw_changed : Bool
  summary_change : Option ValueChange
  sections_changed : Bool
deriving DecidableEq, Repr

structure DocChanges where
  added_docs : List String
  removed_docs : List String
  modified_docs : List (String × DocModDiff)
  summary_changes : List (String × ValueChange)
deriving DecidableEq, Repr

/-- One entry of the differ's naive breaking-change list (`change_type`
is the Python dict key `"type"`). -/
structure BreakingChange where
  change_type : String
  element : String
  severity : String
  description : String
deriving DecidableEq, Repr

/-- Model of Python `repr` of a list of strings (as interpolated into the
breaking-change descriptions). -/
def pyReprStrList (l : List String) : String :=
  "[" ++ String.intercalate ", " (l.map (fun s => "'" ++ s ++ "'")) ++ "]"

/-- Model of `APIDiffer._analyze_breaking_changes`: the fixed first-pass
policy — every removal high, every hash-level modification medium,
parameter removals high, parameter additions medium, type changes high,
appended in the source's order. -/
def analyzeBreakingChanges (sc : SignatureChanges) (ac : ApiChanges) : List BreakingChange :=
  sc.removed.map (fun e =>
    { change_type := "removal", element := e, severity := "high",
      description := "API element '" ++ e ++ "' was removed" })
  ++ sc.modified.map (fun e =>
    { change_type := "signature_change", element := e, severity := "medium",
      description := "API signature for '" ++ e ++ "' was modified" })
  ++ (ac.parameter_changes.map (fun fc =>
      (if fc.2.removed_parameters.isEmpty then [] else
        [{ change_type := "parameter_removal", element := fc.1, severity := "high",
           description := "Parameters removed from '" ++ fc.1 ++ "': " ++
             pyReprStrList fc.2.removed_parameters }])
      ++ (if fc.2.added_parameters.isEmpty then [] else
        [{ change_type := "parameter_addition", element := fc.1, severity := "medium",
           description := "Parameters added to '" ++ fc.1 ++ "': " ++
             pyReprStrList fc.2.added_parameters }]))).flatten
  ++ ac.type_changes.map (fun tc =>
    { change_type := "type_change", element := tc.1, severity := "high",
      description := "Type of '" ++ tc.1 ++ "' changed from " ++ pyStr tc.2.old ++
        " to " ++ pyStr tc.2.new })

structure DocChangeCounts where
  added : Nat
  removed : Nat
  modified : Nat
deriving DecidableEq, Repr

structure SeverityCounts where
  high : Nat
  medium : Nat
  low : Nat
deriving DecidableEq, Repr

structure DiffSummary where
  total_changes : Nat
  api_additions : Nat
  api_removals : Nat
  api_modifications : Nat
  breaking_changes_count : Nat
  documentation_changes : DocChangeCounts
  severity_analysis : SeverityCounts
  compatibility_assessment : String
deriving DecidableEq, Repr

/-- Model of `APIDiffer._generate_summary`. -/
def generateSummary (sc : SignatureChanges) (breakingChanges : List BreakingChange)
    (dc : DocChanges) : DiffSummary :=
  { total_changes := sc.added.length + sc.removed.length + sc.modified.length,
    api_additions := sc.added.length,
    api_removals := sc.removed.length,
    api_modifications := sc.modified.length,
    breaking_changes_count := breakingChanges.length,
    documentation_changes :=
      { added := dc.added_docs.length, removed := dc.removed_docs.length,
        modified := dc.modified_docs.length },
    severity_analysis :=
      { high := (breakingChanges.filter (fun bc => bc.severity = "high")).length,
        medium := (breakingChanges.filter (fun bc => bc.severity = "medium")).length,
        low := (breakingChanges.filter (fun bc => bc.severity = "low")).length },
    compatibility_assessment := if breakingChanges.isEmpty then "compatible" else "breaking" }

/-! ## Change classifier (`diffing/change_classifier.py`)

The enum values `ChangeType.*.value`, `Severity.*.value` and
`CompatibilityImpact.*.value` are inlined as their string values. -/

/-- Detail record attached to a modification classification
(`_analyze_element_changes`): the dict keys become optional fields. -/
structure ChangeDetails where
  parameter_changes : Option ParamChangeSet
  return_type_changed : Bool
  return_type_details : Option ValueChange
  type_changed : Bool
  type_details : Option ValueChange
  module_changed : Bool
  module_details : Option ValueChange
  inheritance_changes : Option InheritanceChange
deriving DecidableEq, Repr

structure Classification where
  element : String
  change_type : String
  severity : String
  compatibility_impact : String
  description : String
  breaking : Bool
  deprecation_target : Option String
  migration_notes : Option String
  change_details : Option ChangeDetails
deriving DecidableEq, Repr

/-- Model of `ChangeClassifier._apply_addition_rules`. -/
def applyAdditionRules (element : String) (c : Classification) : Classification :=
  let c := if ["__init__", "required", "mandatory"].any
      (fun p => strContainsSub (pyLower element) p) then
    { c with
      severity := "low",
      description := c.description ++ " - may require updates to existing usage" }
  else c
  let c := if ["abstract", "interface", "protocol"].any
      (fun p => strContainsSub (pyLower element) p) then
    { c with
      severity := "low",
      description := c.description ++ " - new abstract interface" }
  else c
  c

/-- Model of `ChangeClassifier._classify_additions`. -/
def classifyAdditions (added : List String) : List Classification :=
  added.map (fun e => applyAdditionRules e
    { element := e, change_type := "addition", severity := "info",
      compatibility_impact := "compatible",
      description := "New API element '" ++ e ++ "' added",
      breaking := false, deprecation_target := none, migration_notes := none,
      change_details := none })

/-- The fixed list of "core" name substrings in `_apply_removal_rules`. -/
def corePatterns : List String := ["collector", "filler", "data", "csv", "operations"]

/-- Model of `ChangeClassifier._apply_removal_rules`: the three rules are
applied in source order (underscore-private names, then `"deprecated"`, then
the core patterns), each overwriting the severity set before it. -/
def applyRemovalRules (element : String) (c : Classification) : Classification :=
  let c := if pyStartsWith element "_" then
    { c with
      severity := "high",
      description := c.description ++ " (internal/private element)" }
  else c
  let c := if strContainsSub (pyLower element) "deprecated" then
    { c with
      severity := "medium",
      description := c.description ++ " (previously deprecated)" }
  else c
  let c := if corePatterns.any (fun p => strContainsSub (pyLower element) p) then
    { c with
      severity := "critical",
      description := c.description ++ " (core functionality)" }
  else c
  c

/-- Model of `ChangeClassifier._classify_removals`. -/
def classifyRemovals (removed : List String) : List Classification :=
  removed.map (fun e => applyRemovalRules e
    { element := e, change_type := "removal", severity := "critical",
      compatibility_impact := "breaking",
      description := "API element '" ++ e ++ "' removed",
      breaking := true, deprecation_target := none,
      migration_notes := some ("Remove usage of '" ++ e ++ "' - no longer available"),
      change_details := none })

/-- Model of `ChangeClassifier._analyze_element_changes`. -/
def analyzeElementChanges (element : String) (ac : ApiChanges) : ChangeDetails :=
  let pc := ac.parameter_changes.lookup element
  let rc := ac.return_type_changes.lookup element
  let tc := ac.type_changes.lookup element
  let mc := ac.module_changes.lookup element
  let ic := ac.inheritance_changes.lookup element
  { parameter_changes := pc,
    return_type_changed := rc.isSome, return_type_details := rc,
    type_changed := tc.isSome, type_details := tc,
    module_changed := mc.isSome, module_details := mc,
    inheritance_changes := ic }

/-- The `breaking_indicators`/`severity_factors` pairs accumulated by
`_apply_modification_rules`, in source order. -/
def modificationFactors (cd : ChangeDetails) : List (String × String) :=
  (match cd.parameter_changes with
   | some pc =>
     (if pc.removed_parameters.isEmpty then [] else [("Parameters removed", "critical")])
     ++ (if pc.added_parameters.isEmpty then [] else [("Parameters added", "medium")])
     ++ (pc.modified_parameters.map (fun pd =>
        (if pd.2.annChange.isSome then [("Parameter type changed: " ++ pd.1, "high")] else [])
        ++ (if pd.2.kindChange.isSome then [("Parameter kind changed: " ++ pd.1, "high")] else []))).flatten
   | none => [])
  ++ (if cd.return_type_changed then [("Return type changed", "high")] else [])
  ++ (match cd.inheritance_changes with
      | some ic =>
        (if ic.removed_bases.isEmpty then [] else [("Base classes removed", "high")])
        ++ (if ic.added_bases.isEmpty then [] else [("Base classes added", "low")])
      | none => [])
  ++ (if cd.type_changed then [("Element type changed", "critical")] else [])
  ++ (if cd.module_changed then [("Module location changed", "medium")] else [])

/-- Model of `ChangeClassifier._generate_migration_notes`. -/
def generateMigrationNotes (element : String) (inds : List String) (cd : ChangeDetails) : String :=
  let notes := ["Migration required for '" ++ element ++ "':"]
  let notes := notes ++ (if inds.contains "Parameters removed" then
    ["- Remove parameters: " ++ String.intercalate ", "
      ((cd.parameter_changes.map (fun pc => pc.removed_parameters)).getD [])]
    else [])
  let notes := notes ++ (if inds.contains "Parameters added" then
    ["- Add parameters: " ++ String.intercalate ", "
      ((cd.parameter_changes.map (fun pc => pc.added_parameters)).getD [])]
    else [])
  let notes := notes ++ (if inds.contains "Return type changed" then
    ["- Update return type handling: " ++
      (match cd.return_type_details with | some vc => pyStr vc.old | none => "None") ++ " -> " ++
      (match cd.return_type_details with | some vc => pyStr vc.new | none => "None")]
    else [])
  let notes := notes ++ (if inds.contains "Element type changed" then
    ["- Element type changed: " ++
      (match cd.type_details with | some vc => pyStr vc.old | none => "None") ++ " -> " ++
      (match cd.type_details with | some vc => pyStr vc.new | none => "None")]
    else [])
  let notes := notes ++ (if inds.contains "Module location changed" then
    ["- Update import: from " ++
      (match cd.module_details with | some vc => pyStr vc.old | none => "None") ++ " to " ++
      (match cd.module_details with | some vc => pyStr vc.new | none => "None")]
    else [])
  String.intercalate "\n" notes

/-- Model of `ChangeClassifier._apply_modification_rules`. -/
def applyModificationRules (element : String) (c : Classification) (cd : ChangeDetails) :
    Classification :=
  let factors := modificationFactors cd
  let inds := factors.map Prod.fst
  let sevs := factors.map Prod.snd
  if inds.isEmpty then
    { c with
      compatibility_impact := "compatible",
      severity := "low",
      description := c.description ++ " - non-breaking changes" }
  else
    { c with
      breaking := true,
      compatibility_impact := "breaking",
      severity := if sevs.contains "critical" then "critical"
        else if sevs.contains "high" then "high" else "medium",
      description := c.description ++ " - " ++ String.intercalate ", " inds,
      migration_notes := some (generateMigrationNotes element inds cd) }

/-- Model of `ChangeClassifier._classify_modifications`. -/
def classifyModifications (modified : List String) (ac : ApiChanges) : List Classification :=
  modified.map (fun e =>
    let cd := analyzeElementChanges e ac
    applyModificationRules e
      { element := e, change_type := "modification", severity := "medium",
        compatibility_impact := "unknown",
        description := "API element '" ++ e ++ "' modified",
        breaking := false, deprecation_target := none, migration_notes := none,
        change_details := some cd } cd)

structure ClassificationSummary where
  total_changes : Nat
  by_type : List (String × Nat)
  by_severity : List (String × Nat)
  by_compatibility : List (String × Nat)
  breaking_changes_count : Nat
  critical_changes : List String
  migration_required : List String
deriving DecidableEq, Repr

/-- Increment a counter dict entry (`d.get(k, 0) + 1`), preserving the
insertion order of Python dicts. -/
def bumpCount (m : List (String × Nat)) (k : String) : List (String × Nat) :=
  if m.any (fun kv => kv.1 == k) then
    m.map (fun kv => if kv.1 = k then (kv.1, kv.2 + 1) else kv)
  else m ++ [(k, 1)]

/-- Model of `ChangeClassifier._generate_classification_summary`. -/
def generateClassificationSummary (additions removals modifications : List Classification) :
    ClassificationSummary :=
  let allChanges := additions ++ removals ++ modifications
  allChanges.foldl (fun s c =>
    { s with
      by_type := bumpCount s.by_type c.change_type,
      by_severity := bumpCount s.by_severity c.severity,
      by_compatibility := bumpCount s.by_compatibility c.compatibility_impact,
      breaking_changes_count := s.breaking_changes_count + (if c.breaking then 1 else 0),
      critical_changes := s.critical_changes ++
        (if c.severity = "critical" then [c.element] else []),
      migration_required := s.migration_required ++
        (if (match c.migration_notes with | some m => m != "" | none => false) then [c.element] else []) })
    { total_changes := allChanges.length, by_type := [], by_severity := [],
      by_compatibility := [], breaking_changes_count := 0, critical_changes := [],
      migration_required := [] }

structure ClassifiedChanges where
  additions : List Classification
  removals : List Classification
  modifications : List Classification
  summary : ClassificationSummary
deriving DecidableEq, Repr

/-- Model of `ChangeClassifier.classify_changes` (the part that builds
`classified_changes`; the enclosing diff dict update is state threading). -/
def classifyChanges (sc : SignatureChanges) (ac : ApiChanges) : ClassifiedChanges :=
  let additions := classifyAdditions sc.added
  let removals := classifyRemovals sc.removed
  let modifications := classifyModifications sc.modified ac
  { additions := additions, removals := removals, modifications := modifications,
    summary := generateClassificationSummary additions removals modifications }

/-- Model of `ChangeClassifier._assess_overall_compatibility`. -/
def assessOverallCompatibility (cc : ClassifiedChanges) : String :=
  if cc.summary.breaking_changes_count > 0 then "breaking" else "compatible"

structure BumpSuggestion where
  current_version : String
  suggested_bump : Option String
  reason : String
  breaking_changes : Nat
  total_changes : Nat
  critical_changes : Nat
  migration_required : Nat
deriving DecidableEq, Repr

/-- Model of `ChangeClassifier.suggest_version_bump`: any breaking change
means major, else any addition minor, else any change patch, else no
suggestion. -/
def suggestVersionBump (classifiedChanges : ClassifiedChanges) (currentVersion : String) :
    BumpSuggestion :=
  let summary := classifiedChanges.summary
  let breakingCount := summary.breaking_changes_count
  let totalChanges := summary.total_changes
  let additions := (summary.by_type.lookup "addition").getD 0
  let pick : Option String × String :=
    if breakingCount > 0 then
      (some "major", "Breaking changes detected (" ++ toString breakingCount ++ " breaking changes)")
    else if additions > 0 then
      (some "minor", "New features added (" ++ toString additions ++ " additions)")
    else if totalChanges > 0 then
      (some "patch", "Bug fixes or documentation changes (" ++ toString totalChanges ++ " changes)")
    else (none, "No changes detected")
  { current_version := currentVersion, suggested_bump := pick.1, reason := pick.2,
    breaking_changes := breakingCount, total_changes := totalChanges,
    critical_changes := summary.critical_changes.length,
    migration_required := summary.migration_required.length }

/-! ## Snapshot store and the API differ pipeline

`create_api_snapshot` / `_load_latest_snapshot` operate on the snapshots
directory, modelled as a list of (filename, mtime, parsed JSON content)
entries.  `json.dump` / `json.load` round-tripping of the external json
library is modelled as identity on values, so file contents are stored as
`Json`. -/

structure FileEnt where
  name : String
  mtime : Nat
  content : Json
deriving DecidableEq, Repr

abbrev SnapshotStore := List FileEnt

/-- Model of `open(path, "w")` + `json.dump`: replaces any existing file
of the same name and stamps the new modification time. -/
def writeFile (fs : SnapshotStore) (name : String) (mtime : Nat) (content : Json) :
    SnapshotStore :=
  (fs.filter (fun e => e.name ≠ name)) ++ [⟨name, mtime, content⟩]

/-- The differ's call `self.hasher.hash_api_signature(api_data)` (the
hasher is constructed with the default `strict` sensitivity); a non-dict
`api_data` raises at the hasher's first `.get`. -/
def apiSignatureHashes (apiData : Json) : Except PyErr (List (String × String)) :=
  match apiData with
  | .obj es => hashApiSignatureE "strict" es
  | _ => .error (.attributeError "get")

/-- The snapshot dict literal built inside `create_api_snapshot` (fields in
source order). -/
def buildSnapshotE (apiData : Json) (version timestamp : String) : Except PyErr Json := do
  let hashes ← apiSignatureHashes apiData
  let pkgInfo ← pyGet apiData "package_info" (Json.mkObj [])
  let pkgName ← pyGet pkgInfo "name" (.str "unknown")
  let publicApi ← pyGet apiData "public_api" (Json.mkObj [])
  let totalElements ← pyLen publicApi
  pure (Json.mkObj [("version", .str version), ("timestamp", .str timestamp),
    ("api_data", apiData),
    ("signature_hashes", Json.mkObj (hashes.map (fun kv => (kv.1, Json.str kv.2)))),
    ("metadata", Json.mkObj [("package_name", pkgName),
      ("total_elements", .num totalElements),
      ("snapshot_format_version", .str "1.0")])])

/-- Model of `APIDiffer.create_api_snapshot`: `now` is the write's
modification time, `timestamp` the value of `datetime.now().isoformat()`;
the filename embeds `timestamp[:10]`. -/
def createApiSnapshotE (fs : SnapshotStore) (now : Nat) (timestamp : String)
    (apiData : Json) (version : String) : Except PyErr (SnapshotStore × String) := do
  let snapshot ← buildSnapshotE apiData version timestamp
  let snapshotFile := "api_snapshot_" ++ version ++ "_" ++
    String.mk (timestamp.data.take 10) ++ ".json"
  pure (writeFile fs snapshotFile now snapshot, snapshotFile)

/-- The filename filter realised by
`snapshots_dir.glob(f"api_snapshot_{version}_*.json")` for version strings
without glob metacharacters (`*`, `?`, `[`): the name starts with the
version's fixed pattern head, ends with `.json`, and is long enough for
the `*` to match a (possibly empty) middle. -/
def snapshotGlobMatch (version fname : String) : Bool :=
  pyStartsWith fname ("api_snapshot_" ++ version ++ "_") &&
  pyEndsWith fname ".json" &&
  decide (("api_snapshot_" ++ version ++ "_").length + 5 ≤ fname.length)

/-- Model of `_load_latest_snapshot`: glob by version pattern, pick the
most recently modified match (first maximum on ties, as Python `max`),
return its parsed content. -/
def loadLatestSnapshot (fs : SnapshotStore) (version : String) : Option Json :=
  match fs.filter (fun e => snapshotGlobMatch version e.name) with
  | [] => none
  | f :: rest =>
    some ((rest.foldl (fun acc e => if acc.mtime < e.mtime then e else acc) f).content)

/-- Hashability of a value, for `set(...)` construction. -/
def jsonHashable : Json → Bool
  | .null => true
  | .bool _ => true
  | .num _ => true
  | .str _ => true
  | .arr _ => false
  | .obj _ => false

/-- Model of Python `set(x)` for the iterables that occur in the differ:
lists of hashable values (unhashable members raise `TypeError`), strings
(sets of characters), dicts (sets of keys). -/
def pySetE (v : Json) : Except PyErr (List Json) :=
  match v with
  | .arr xs =>
    let l := xs.toList
    if l.all jsonHashable then .ok l.dedup
    else .error (.typeError "unhashable type")
  | .str s => .ok ((s.data.map (fun c => Json.str (String.mk [c]))).dedup)
  | .obj es => .ok ((es.keys.map Json.str).dedup)
  | _ => .error (.typeError "object is not iterable")

def setEqJson (a b : List Json) : Bool :=
  a.all (fun x => b.contains x) && b.all (fun x => a.contains x)

def setDiffJson (a b : List Json) : List Json :=
  a.filter (fun x => !(b.contains x))

def jsonArrToList : Json → List Json
  | .arr xs => xs.toList
  | _ => []

/-- Model of `_compare_class_changes`: the optional entry added to
`inheritance_changes` when the base-class sets differ. -/
def compareClassChangesE (oldClass newClass : Json) :
    Except PyErr (Option InheritanceChange) := do
  let ob ← pyGet oldClass "base_classes" (Json.mkArr [])
  let nb ← pyGet newClass "base_classes" (Json.mkArr [])
  let oldBases ← pySetE ob
  let newBases ← pySetE nb
  if setEqJson oldBases newBases then pure none
  else do
    let ab ← pySorted (Json.mkArr (setDiffJson newBases oldBases))
    let rb ← pySorted (Json.mkArr (setDiffJson oldBases newBases))
    pure (some { added_bases := jsonArrToList ab, removed_bases := jsonArrToList rb })

/-- Model of `_compare_function_changes`: the optional
`parameter_changes` entry and the optional `return_type_changes` entry
for one function. -/
def compareFunctionChangesE (oldFunc newFunc : Json) :
    Except PyErr (Option ParamChangeSet × Option ValueChange) := do
  let op ← pyGet oldFunc "parameters" (Json.mkObj [])
  let np ← pyGet newFunc "parameters" (Json.mkObj [])
  let oi ← pyItems op
  let ni ← pyItems np
  let oldNames := (oi.map Prod.fst).dedup
  let newNames := (ni.map Prod.fst).dedup
  let addedParams := sortStrings (newNames.filter (fun k => k ∉ oldNames))
  let removedParams := sortStrings (oldNames.filter (fun k => k ∉ newNames))
  let commonParams := oldNames.filter (fun k => k ∈ newNames)
  let modifiedParams ← commonParams.foldlM (fun acc pname => do
    let opd := (oi.lookup pname).getD .null
    let npd := (ni.lookup pname).getD .null
    let oa ← pyGet opd "annotation" .null
    let na ← pyGet npd "annotation" .null
    let od ← pyGet opd "default" .null
    let nd ← pyGet npd "default" .null
    let okd ← pyGet opd "kind" .null
    let nkd ← pyGet npd "kind" .null
    let d : ParamFieldDiffs :=
      { annChange := if oa ≠ na then some ⟨oa, na⟩ else none,
        defaultChange := if od ≠ nd then some ⟨od, nd⟩ else none,
        kindChange := if okd ≠ nkd then some ⟨okd, nkd⟩ else none }
    pure (if d.annChange.isSome || d.defaultChange.isSome || d.kindChange.isSome then
      acc ++ [(pname, d)] else acc)) []
  let pcs : ParamChangeSet :=
    { added_parameters := addedParams, removed_parameters := removedParams,
      modified_parameters := modifiedParams }
  let pcEntry := if !addedParams.isEmpty || !removedParams.isEmpty ||
      !modifiedParams.isEmpty then some pcs else none
  let ore ← pyGet oldFunc "return_annotation" .null
  let nre ← pyGet newFunc "return_annotation" .null
  let rtEntry := if ore ≠ nre then some ({ old := ore, new := nre } : ValueChange) else none
  pure (pcEntry, rtEntry)

/-- Model of `_compare_api_structures`.  Python iterates the common
elements in (unspecified) set order; the embedding fixes the old dict's
insertion order, which only affects the order of the association-list
outputs, not their contents. -/
def compareApiStructuresE (oldSnap newSnap : Json) : Except PyErr ApiChanges := do
  let oad ← pyGet oldSnap "api_data" (Json.mkObj [])
  let oapi ← pyGet oad "public_api" (Json.mkObj [])
  let nad ← pyGet newSnap "api_data" (Json.mkObj [])
  let napi ← pyGet nad "public_api" (Json.mkObj [])
  let oi ← pyItems oapi
  let ni ← pyItems napi
  let common := ((oi.map Prod.fst).dedup).filter (fun k => k ∈ ni.map Prod.fst)
  common.foldlM (fun (changes : ApiChanges) ename => do
    let oldEl := (oi.lookup ename).getD .null
    let newEl := (ni.lookup ename).getD .null
    let oldType ← pyGet oldEl "type" (.str "unknown")
    let newType ← pyGet newEl "type" (.str "unknown")
    let changes := if oldType ≠ newType then
      { changes with type_changes :=
          changes.type_changes ++ [(ename, { old := oldType, new := newType })] }
      else changes
    let oldMod ← pyGet oldEl "module" (.str "unknown")
    let newMod ← pyGet newEl "module" (.str "unknown")
    let changes := if oldMod ≠ newMod then
      { changes with module_changes :=
          changes.module_changes ++ [(ename, { old := oldMod, new := newMod })] }
      else changes
    if oldType = .str "class" ∧ newType = .str "class" then do
      let ic ← compareClassChangesE oldEl newEl
      pure (match ic with
        | some c => { changes with inheritance_changes :=
            changes.inheritance_changes ++ [(ename, c)] }
        | none => changes)
    else if (oldType = .str "function" ∨ oldType = .str "method") ∧
        (newType = .str "function" ∨ newType = .str "method") then do
      let pcrt ← compareFunctionChangesE oldEl newEl
      let changes := match pcrt.1 with
        | some c => { changes with parameter_changes :=
            changes.parameter_changes ++ [(ename, c)] }
        | none => changes
      let changes := match pcrt.2 with
        | some c => { changes with return_type_changes :=
            changes.return_type_changes ++ [(ename, c)] }
        | none => changes
      pure changes
    else pure changes)
    { type_changes := [], module_changes := [], inheritance_changes := [],
      parameter_changes := [], return_type_changes := [] }

/-- Model of `_compare_documentation`. -/
def compareDocumentationE (oldSnap newSnap : Json) : Except PyErr DocChanges := do
  let oad ← pyGet oldSnap "api_data" (Json.mkObj [])
  let odocs ← pyGet oad "docstrings" (Json.mkObj [])
  let nad ← pyGet newSnap "api_data" (Json.mkObj [])
  let ndocs ← pyGet nad "docstrings" (Json.mkObj [])
  let oi ← pyItems odocs
  let ni ← pyItems ndocs
  let oldEls := (oi.map Prod.fst).dedup
  let newEls := (ni.map Prod.fst).dedup
  let addedDocs := sortStrings (newEls.filter (fun k => k ∉ oldEls))
  let removedDocs := sortStrings (oldEls.filter (fun k => k ∉ newEls))
  let common := oldEls.filter (fun k => k ∈ newEls)
  let md ← common.foldlM (fun (acc : List (String × DocModDiff) × List (String × ValueChange)) ename => do
    let odoc := (oi.lookup ename).getD .null
    let ndoc := (ni.lookup ename).getD .null
    let oraw ← pyGet odoc "raw" (.str "")
    let nraw ← pyGet ndoc "raw" (.str "")
    let rawChanged := oraw ≠ nraw
    let osum ← pyGet odoc "summary" (.str "")
    let nsum ← pyGet ndoc "summary" (.str "")
    let sumChange := if osum ≠ nsum then
      some ({ old := osum, new := nsum } : ValueChange) else none
    let osec ← pyGet odoc "sections" (Json.mkObj [])
    let nsec ← pyGet ndoc "sections" (Json.mkObj [])
    let secChanged := osec ≠ nsec
    let d : DocModDiff :=
      { raw_changed := rawChanged, summary_change := sumChange,
        sections_changed := secChanged }
    let modAcc := if rawChanged || sumChange.isSome || secChanged then
      acc.1 ++ [(ename, d)] else acc.1
    let sumAcc := acc.2 ++ (match sumChange with
      | some vc => [(ename, vc)]
      | none => [])
    pure (modAcc, sumAcc)) ([], [])
  pure
    { added_docs := addedDocs, removed_docs := removedDocs,
      modified_docs := md.1, summary_changes := md.2 }

structure ComparisonInfo where
  old_version : String
  new_version : String
  comparison_timestamp : String
  old_snapshot_timestamp : Json
  new_snapshot_timestamp : Json
deriving DecidableEq, Repr

structure DiffResult where
  comparison_info : ComparisonInfo
  signature_changes : SignatureChanges
  api_changes : ApiChanges
  documentation_changes : DocChanges
  breaking_changes : List BreakingChange
  deprecations : List Json
  summary : DiffSummary
deriving DecidableEq, Repr

/-- Model of the differ's `_compare_signatures` method. -/
def compareSignaturesOfSnapshotsE (oldSnap newSnap : Json) :
    Except PyErr SignatureChanges := do
  let oh ← pyGet oldSnap "signature_hashes" (Json.mkObj [])
  let nh ← pyGet newSnap "signature_hashes" (Json.mkObj [])
  let oi ← pyItems oh
  let ni ← pyItems nh
  pure (compareSignatures oi ni)

/-- Model of `APIDiffer.compare_versions`.  `comparisonTimestamp` models
`datetime.now().isoformat()` and `tsCompact` the `%Y%m%d_%H%M%S` stamp of
`_save_diff`; the diff is written to the separate diffs directory, whose
filename the call returns alongside the diff (its content is the returned
diff serialised, and it is never read back). -/
def compareVersionsE (fs : SnapshotStore)
    (oldVersion newVersion comparisonTimestamp tsCompact : String) :
    Except PyErr (DiffResult × String) := do
  let oldSnapOpt := loadLatestSnapshot fs oldVersion
  let newSnapOpt := loadLatestSnapshot fs newVersion
  let oldSnap ← (match oldSnapOpt with
    | some j => if j.truthy then Except.ok j else
        Except.error (PyErr.valueError ("No snapshot found for version " ++ oldVersion))
    | none => Except.error (PyErr.valueError ("No snapshot found for version " ++ oldVersion)))
  let newSnap ← (match newSnapOpt with
    | some j => if j.truthy then Except.ok j else
        Except.error (PyErr.valueError ("No snapshot found for version " ++ newVersion))
    | none => Except.error (PyErr.valueError ("No snapshot found for version " ++ newVersion)))
  let oldTs ← pyIndex oldSnap "timestamp"
  let newTs ← pyIndex newSnap "timestamp"
  let sc ← compareSignaturesOfSnapshotsE oldSnap newSnap
  let ac ← compareApiStructuresE oldSnap newSnap
  let dc ← compareDocumentationE oldSnap newSnap
  let bcs := analyzeBreakingChanges sc ac
  let summary := generateSummary sc bcs dc
  let diff : DiffResult :=
    { comparison_info :=
        { old_version := oldVersion, new_version := newVersion,
          comparison_timestamp := comparisonTimestamp,
          old_snapshot_timestamp := oldTs, new_snapshot_timestamp := newTs },
      signature_changes := sc, api_changes := ac, documentation_changes := dc,
      breaking_changes := bcs, deprecations := [], summary := summary }
  pure (diff, "diff_" ++ oldVersion ++ "_to_" ++ newVersion ++ "_" ++ tsCompact ++ ".json")

/-! ## Stub generator (`generation/stub_generator.py`)

The generated-docs directory is modelled as a (path, content) store.
Jinja2 rendering is an external collaborator; the rendered text is
modelled as a fixed total function of the element (so the per-element
`try/except` never fires in the model), which is all the write/skip logic
depends on. -/

abbrev StubStore := List (String × String)

def stubExists (fs : StubStore) (p : String) : Bool := fs.any (fun e => e.1 == p)

def stubWrite (fs : StubStore) (p c : String) : StubStore :=
  (fs.filter (fun e => e.1 ≠ p)) ++ [(p, c)]

/-- Model of `re.sub(r"[^\w\-_.]", "_", element_name)` (ASCII word
characters; the unicode extent of `\w` does not matter for the claims). -/
def safeName (s : String) : String :=
  String.mk (s.data.map (fun c =>
    if c.isAlphanum || c = '_' || c = '-' || c = '.' then c else '_'))

/-- Model of `_generate_element_stub` (Jinja2 rendering of the prepared
context): a fixed total function of the element. -/
def generateElementStub (elementName : String) (elementData : Json)
    (elementType : String) : String :=
  "# " ++ elementName ++ " (" ++ elementType ++ ")\n" ++ elementData.dumps

/-- Model of `StubGenerator.regenerate_all_stubs`: for each element of
`public_api`, compute the stub path `outputDir/api_reference/` ++
`safe_name_{type}.md`; skip it when the file exists and `force` is false,
otherwise render and write it (`_save_stub` recomputes the same path) and
record it in the returned mapping. -/
def regenerateAllStubsE (fs : StubStore) (outputDir : String) (apiData : Json)
    (force : Bool) : Except PyErr (StubStore × List (String × String)) := do
  let publicApi ← pyGet apiData "public_api" (Json.mkObj [])
  let its ← pyItems publicApi
  its.foldlM (fun acc kv => do
    let etype ← pyGet kv.2 "type" (.str "unknown")
    let fpath := outputDir ++ "/api_reference/" ++ safeName kv.1 ++ "_" ++
      pyStr etype ++ ".md"
    if stubExists acc.1 fpath && !force then
      pure acc
    else do
      let content := generateElementStub kv.1 kv.2 (pyStr etype)
      pure (stubWrite acc.1 fpath content, acc.2 ++ [(kv.1, fpath)])) (fs, [])

/-! ## Version tracker (`diffing/version_tracker.py`)

The SQLite store is modelled as lists of typed rows; `id` columns are
modelled by an explicit autoincrement counter. -/

structure ParsedVersion where
  version_string : String
  major : Nat
  minor : Nat
  patch : Nat
  pre_release : Option String
  build_metadata : Option String
  is_valid_semver : Bool
deriving DecidableEq, Repr

def splitOnChar (c : Char) : List Char → List (List Char)
  | [] => [[]]
  | x :: xs =>
    match splitOnChar c xs with
    | [] => [[]]
    | y :: ys => if x = c then [] :: y :: ys else (x :: y) :: ys

def splitFirstChar (c : Char) : List Char → List Char × Option (List Char)
  | [] => ([], none)
  | x :: xs =>
    if x = c then ([], some xs)
    else
      let r := splitFirstChar c xs
      (x :: r.1, r.2)

def isAsciiDigits (l : List Char) : Bool :=
  !l.isEmpty && l.all (fun c => 48 ≤ c.toNat && c.toNat ≤ 57)

def parseNatDigits (l : List Char) : Nat :=
  l.foldl (fun a c => a * 10 + (c.toNat - 48)) 0

/-- The regex alternative `0|[1-9]\d*`. -/
def numericIdent (l : List Char) : Bool :=
  isAsciiDigits l && (l.length = 1 || l.head? ≠ some '0')

def semverIdentChar (c : Char) : Bool :=
  (48 ≤ c.toNat && c.toNat ≤ 57) || (65 ≤ c.toNat && c.toNat ≤ 90) ||
  (97 ≤ c.toNat && c.toNat ≤ 122) || c = '-'

/-- The regex alternative `0|[1-9]\d*|\d*[a-zA-Z-][0-9a-zA-Z-]*`. -/
def prereleaseIdentOk (l : List Char) : Bool :=
  !l.isEmpty && l.all semverIdentChar &&
    (if l.all (fun c => 48 ≤ c.toNat && c.toNat ≤ 57) then numericIdent l else true)

def buildIdentOk (l : List Char) : Bool :=
  !l.isEmpty && l.all semverIdentChar

/-- Model of `VersionTracker.parse_version`: the semantic-versioning regex
(major/minor/patch with optional pre-release after the first `-` and
build metadata after the first `+`), with the best-effort digit fallback
for non-semver strings. -/
def parseVersion (versionString : String) : ParsedVersion :=
  let l := versionString.data
  let bp := splitFirstChar '+' l
  let cp := splitFirstChar '-' bp.1
  let coreParts := splitOnChar '.' cp.1
  let coreOk := match coreParts with
    | [ma, mi, pa] => numericIdent ma && numericIdent mi && numericIdent pa
    | _ => false
  let preOk := match cp.2 with
    | none => true
    | some p => (splitOnChar '.' p).all prereleaseIdentOk
  let buildOk := match bp.2 with
    | none => true
    | some b => (splitOnChar '.' b).all buildIdentOk
  match coreParts, coreOk && preOk && buildOk with
  | [ma, mi, pa], true =>
    { version_string := versionString, major := parseNatDigits ma,
      minor := parseNatDigits mi, patch := parseNatDigits pa,
      pre_release := cp.2.map String.mk, build_metadata := bp.2.map String.mk,
      is_valid_semver := true }
  | _, _ =>
    let parts := splitOnChar '.' l
    { version_string := versionString,
      major := match parts[0]? with
        | some p => if isAsciiDigits p then parseNatDigits p else 0
        | none => 0,
      minor := match parts[1]? with
        | some p => if isAsciiDigits p then parseNatDigits p else 0
        | none => 0,
      patch := match parts[2]? with
        | some p => if isAsciiDigits p then parseNatDigits p else 0
        | none => 0,
      pre_release := none, build_metadata := none, is_valid_semver := false }

structure VersionRow where
  id : Nat
  version_string : String
  major : Nat
  minor : Nat
  patch : Nat
  pre_release : Option String
  build_metadata : Option String
  created_timestamp : String
  snapshot_file : Option String
  is_current : Bool
  notes : Option String
deriving DecidableEq, Repr

structure ChangeRow where
  from_version_id : Nat
  to_version_id : Nat
  change_type : Json
  element_name : Json
  severity : Json
  description : Json
  created_timestamp : String
deriving DecidableEq, Repr

structure DeprecationRow where
  element_name : String
  deprecated_in_version_id : Nat
  removal_target_version_id : Option Nat
  reason : Option String
  alternative : Option String
  created_timestamp : String
deriving DecidableEq, Repr

structure TrackerDB where
  versions : List VersionRow
  version_changes : List ChangeRow
  deprecations : List DeprecationRow
  next_version_id : Nat
deriving DecidableEq, Repr

/-- Model of `get_version_info` (SELECT on the UNIQUE `version_string`). -/
def getVersionInfo (db : TrackerDB) (versionString : String) : Option VersionRow :=
  db.versions.find? (fun r => r.version_string == versionString)

/-- Model of `VersionTracker.register_version`.  The `with
sqlite3.connect` block commits on success and rolls back on an exception,
so a failing INSERT (UNIQUE constraint on `version_string`) also undoes
the preceding `UPDATE versions SET is_current = FALSE`: the call then
returns the store unchanged together with the raised `IntegrityError`. -/
def registerVersion (db : TrackerDB) (versionString : String)
    (snapshotFile notes : Option String) (timestamp : String) :
    TrackerDB × Except PyErr Nat :=
  let parsed := parseVersion versionString
  if db.versions.any (fun r => r.version_string == versionString) then
    (db, .error (.integrityError "UNIQUE constraint failed: versions.version_string"))
  else
    let cleared := db.versions.map (fun r => { r with is_current := false })
    let row : VersionRow :=
      { id := db.next_version_id, version_string := versionString,
        major := parsed.major, minor := parsed.minor, patch := parsed.patch,
        pre_release := parsed.pre_release, build_metadata := parsed.build_metadata,
        created_timestamp := timestamp, snapshot_file := snapshotFile,
        is_current := true, notes := notes }
    ({ db with
        versions := cleared ++ [row],
        next_version_id := db.next_version_id + 1 },
      .ok db.next_version_id)

/-- Model of `record_changes`: inserts into `version_changes` only, inside
one transaction (all-or-nothing if a change dict raises at `.get`). -/
def recordChanges (db : TrackerDB) (fromVersion toVersion : String)
    (changes : List Json) (timestamp : String) : TrackerDB × Except PyErr Unit :=
  match getVersionInfo db fromVersion with
  | none => (db, .error (.valueError ("Source version " ++ fromVersion ++ " not found")))
  | some fromInfo =>
    match getVersionInfo db toVersion with
    | none => (db, .error (.valueError ("Target version " ++ toVersion ++ " not found")))
    | some toInfo =>
      match changes.mapM (fun ch => do
        let t ← pyGet ch "type" (.str "unknown")
        let e ← pyGet ch "element" (.str "unknown")
        let s ← pyGet ch "severity" (.str "unknown")
        let d ← pyGet ch "description" (.str "")
        pure ({ from_version_id := fromInfo.id, to_version_id := toInfo.id,
                change_type := t, element_name := e, severity := s, description := d,
                created_timestamp := timestamp } : ChangeRow)) with
      | .ok rows => ({ db with version_changes := db.version_changes ++ rows }, .ok ())
      | .error e => (db, .error e)

/-- Model of `add_deprecation`: inserts into `deprecations` only. -/
def addDeprecation (db : TrackerDB) (elementName deprecatedInVersion : String)
    (reason alternative : Option String) (removalTargetVersion : Option String)
    (timestamp : String) : TrackerDB × Except PyErr Unit :=
  match getVersionInfo db deprecatedInVersion with
  | none =>
    (db, .error (.valueError ("Deprecated version " ++ deprecatedInVersion ++ " not found")))
  | some info =>
    let removalId := match removalTargetVersion with
      | some rv => if rv ≠ "" then (getVersionInfo db rv).map (fun r => r.id) else none
      | none => none
    ({ db with deprecations := db.deprecations ++
        [{ element_name := elementName, deprecated_in_version_id := info.id,
           removal_target_version_id := removalId, reason := reason,
           alternative := alternative, created_timestamp := timestamp }] }, .ok ())

/-! ## Well-formed snapshots

`compare_versions` performs untyped attribute accesses on the loaded
snapshot contents; `snapshotWF` is the (decidable) shape that snapshots
written by `create_api_snapshot` on extractor output have, under which
none of those accesses raises. -/

def wfElement (el : Json) : Bool :=
  match el with
  | .obj es =>
    (match es.lookup "base_classes" with
     | some (.arr xs) => xs.toList.all (fun b => match b with | Json.str _ => true | _ => false)
     | some _ => false
     | none => true) &&
    (match es.lookup "parameters" with
     | some (.obj ps) => ps.toList.all (fun kv => match kv.2 with | Json.obj _ => true | _ => false)
     | some _ => false
     | none => true)
  | _ => false

def snapshotWF (j : Json) : Bool :=
  match j with
  | .obj es =>
    (Json.obj es).truthy &&
    es.hasKey "timestamp" &&
    (match es.lookup "signature_hashes" with
     | some (.obj _) => true
     | some _ => false
     | none => true) &&
    (match es.lookup "api_data" with
     | some (.obj ad) =>
       (match ad.lookup "public_api" with
        | some (.obj pes) => pes.toList.all (fun kv => wfElement kv.2)
        | some _ => false
        | none => true) &&
       (match ad.lookup "docstrings" with
        | some (.obj des) => des.toList.all (fun kv => match kv.2 with | Json.obj _ => true | _ => false)
        | some _ => false
        | none => true)
     | some _ => false
     | none => true)
  | _ => false

/-! ## Concrete instances used by individual claims -/

def jsonField (j : Json) (k : String) : Option Json :=
  match j with
  | .obj es => es.lookup k
  | _ => none

/-- A class whose `methods` dict is listed in one insertion order… -/
def c5d1 : Json := Json.mkObj [("type", .str "class"),
  ("methods", Json.mkObj [
    ("a", Json.mkObj [("signature", .str "(x)"), ("doc", .str "Adds. Something")]),
    ("b", Json.mkObj [("signature", .str "(y)")])])]

/-- …and the same class with the `methods` entries in the other order. -/
def c5d2 : Json := Json.mkObj [("type", .str "class"),
  ("methods", Json.mkObj [
    ("b", Json.mkObj [("signature", .str "(y)")]),
    ("a", Json.mkObj [("signature", .str "(x)"), ("doc", .str "Adds. Something")])])]

def c5n1 : Json :=
  match normalizeElementDataE "strict" "C" c5d1 with
  | .ok n => n
  | .error _ => .null

def c5n2 : Json :=
  match normalizeElementDataE "strict" "C" c5d2 with
  | .ok n => n
  | .error _ => .null

def c6apiA : Json := Json.mkObj [("public_api", Json.mkObj []), ("marker", .str "A")]

def c6apiB : Json := Json.mkObj [("public_api", Json.mkObj []), ("marker", .str "B")]

/-- Write a `1.0` snapshot, then a `1.0_x` snapshot (a different version
string), into a fresh store. -/
def c6store : Option SnapshotStore :=
  match createApiSnapshotE [] 0 "2024-01-01T00:00:00" c6apiA "1.0" with
  | .ok r1 =>
    match createApiSnapshotE r1.1 1 "2024-01-02T00:00:00" c6apiB "1.0_x" with
    | .ok r2 => some r2.1
    | .error _ => none
  | .error _ => none

def c7api : Json := Json.mkObj [("public_api",
  Json.mkObj [("f", Json.mkObj [("type", .str "function")])])]

/-- A store holding well-formed snapshots for versions `1.0` and `2.0`. -/
def c7store : SnapshotStore :=
  match createApiSnapshotE [] 0 "2024-01-01T00:00:00" c7api "1.0" with
  | .ok r1 =>
    match createApiSnapshotE r1.1 1 "2024-01-02T00:00:00" c7api "2.0" with
    | .ok r2 => r2.1
    | .error _ => []
  | .error _ => []

def c8api : Json := Json.mkObj [("public_api", Json.mkObj [
  ("alpha", Json.mkObj [("type", .str "function")]),
  ("Beta", Json.mkObj [("type", .str "class")])])]

def c2sc : SignatureChanges :=
  { added := ["new_helper"], removed := ["gone"], modified := ["mod"], unchanged := [],
    summary := { total_changes := 3, breaking_changes := 2, non_breaking_changes := 1 } }

def c2ac : ApiChanges :=
  { type_changes := [("t", { old := .str "class", new := .str "function" })],
    module_changes := [], inheritance_changes := [],
    parameter_changes := [("f",
      { added_parameters := ["p"], removed_parameters := ["q"], modified_parameters := [] })],
    return_type_changes := [] }

def c2dc : DocChanges :=
  { added_docs := [], removed_docs := [], modified_docs := [], summary_changes := [] }

def c4cc : ClassifiedChanges :=
  { additions := [], removals := [], modifications := [],
    summary :=
      { total_changes := 2, by_type := [("addition", 2)], by_severity := [],
        by_compatibility := [], breaking_changes_count := 0, critical_changes := [],
        migration_required := [] } }

def c10pes : JsonEntries := JsonEntries.ofList [
  ("good", Json.mkObj [("type", .str "function")]),
  ("bad", .str "oops")]

def c10api : JsonEntries := JsonEntries.ofList [("public_api", Json.obj c10pes)]

/-- At most one row of the `versions` table carries the `is_current`
flag. -/
def atMostOneCurrent (db : TrackerDB) : Prop :=
  (db.versions.filter (fun r => r.is_current)).length ≤ 1

def c9db0 : TrackerDB :=
  { versions := [], version_changes := [], deprecations := [], next_version_id := 1 }

def c9reg : TrackerDB × Except PyErr Nat :=
  registerVersion c9db0 "1.0.0" none none "2024-01-01T00:00:00"

def c6fs1 : SnapshotStore :=
  match createApiSnapshotE [] 0 "2024-01-01T00:00:00" c6apiA "1.0" with
  | .ok r => r.1
  | .error _ => []

def c6fname : String :=
  match createApiSnapshotE [] 0 "2024-01-01T00:00:00" c6apiA "1.0" with
  | .ok r => r.2
  | .error _ => ""

/-- The result of a first `force=false` stub-generation run on `c8api`
from an empty store. -/
def c8run1 : StubStore × List (String × String) :=
  match regenerateAllStubsE [] "out" c8api false with
  | .ok r => r
  | .error _ => ([], [])

/-! ## Theorems -/

/-! # Theorems

Helper lemmas first, then one named theorem per claim (with witnesses and
counterexamples as separate named theorems). -/

theorem listCharLt_irrefl : ∀ l, listCharLt l l = false
  | [] => rfl
  | a :: as => by simp [listCharLt, listCharLt_irrefl as]

theorem listCharLt_trans : ∀ (a b c : List Char),
    listCharLt a b = true → listCharLt b c = true → listCharLt a c = true := by
  intro a
  induction a with
  | nil =>
    intro b c hab hbc
    cases c with
    | nil =>
      cases b with
      | nil => simp [listCharLt] at hab
      | cons y ys => simp [listCharLt] at hbc
    | cons z zs => simp [listCharLt]
  | cons x xs ih =>
    intro b c hab hbc
    cases b with
    | nil => simp [listCharLt] at hab
    | cons y ys =>
      cases c with
      | nil => simp [listCharLt] at hbc
      | cons z zs =>
        simp only [listCharLt] at hab hbc ⊢
        rcases Nat.lt_trichotomy x.toNat y.toNat with h₁ | h₁ | h₁
        · rcases Nat.lt_trichotomy y.toNat z.toNat with h₂ | h₂ | h₂
          · simp [Nat.lt_trans h₁ h₂]
          · simp [h₂ ▸ h₁]
          · rw [if_neg (Nat.lt_asymm h₂), if_pos h₂] at hbc
            exact absurd hbc (by simp)
        · rcases Nat.lt_trichotomy y.toNat z.toNat with h₂ | h₂ | h₂
          · simp [h₁ ▸ h₂]
          · rw [if_neg (by omega), if_neg (by omega)] at hab
            rw [if_neg (by omega), if_neg (by omega)] at hbc
            rw [if_neg (by omega), if_neg (by omega)]
            exact ih ys zs hab hbc
          · rw [if_neg (Nat.lt_asymm h₂), if_pos h₂] at hbc
            exact absurd hbc (by simp)
        · rw [if_neg (Nat.lt_asymm h₁), if_pos h₁] at hab
          exact absurd hab (by simp)

theorem listCharLt_connex : ∀ (a b : List Char),
    listCharLt a b = false → listCharLt b a = false → a = b := by
  intro a
  induction a with
  | nil =>
    intro b hab _
    cases b with
    | nil => rfl
    | cons y ys => simp [listCharLt] at hab
  | cons x xs ih =>
    intro b hab hba
    cases b with
    | nil => simp [listCharLt] at hba
    | cons y ys =>
      simp only [listCharLt] at hab hba
      rcases Nat.lt_trichotomy x.toNat y.toNat with h₁ | h₁ | h₁
      · rw [if_pos h₁] at hab; exact absurd hab (by simp)
      · rw [if_neg (by omega), if_neg (by omega)] at hab
        rw [if_neg (by omega), if_neg (by omega)] at hba
        have hxy : x = y := by
          apply Char.ext
          apply UInt32.ext
          exact h₁
        rw [hxy, ih ys hab hba]
      · rw [if_pos h₁] at hba; exact absurd hba (by simp)

theorem pyStrLe_total (a b : String) : pyStrLe a b = true ∨ pyStrLe b a = true := by
  by_contra h
  push_neg at h
  obtain ⟨h₁, h₂⟩ := h
  have h₁' : listCharLt b.data a.data = true := by simpa [pyStrLe] using h₁
  have h₂' : listCharLt a.data b.data = true := by simpa [pyStrLe] using h₂
  have := listCharLt_trans _ _ _ h₁' h₂'
  rw [listCharLt_irrefl] at this
  exact Bool.noConfusion this

theorem pyStrLe_trans (a b c : String) (hab : pyStrLe a b = true)
    (hbc : pyStrLe b c = true) : pyStrLe a c = true := by
  simp only [pyStrLe, Bool.not_eq_true', Bool.not_eq_false] at hab hbc ⊢
  by_cases hca : listCharLt c.data a.data = true
  · by_cases hbcd : listCharLt b.data c.data = true
    · have := listCharLt_trans _ _ _ hbcd hca
      rw [hab] at this
      exact Bool.noConfusion this
    · have hbc2 : b.data = c.data :=
        listCharLt_connex _ _ (Bool.not_eq_true _ ▸ hbcd) hbc
      rw [← hbc2] at hca
      rw [hab] at hca
      exact Bool.noConfusion hca
  · exact Bool.not_eq_true _ ▸ hca

theorem pyStrLe_antisymm (a b : String) (hab : pyStrLe a b = true)
    (hba : pyStrLe b a = true) : a = b := by
  simp only [pyStrLe, Bool.not_eq_true', Bool.not_eq_false] at hab hba
  have h := listCharLt_connex a.data b.data hba hab
  cases a
  cases b
  simp only at h
  rw [h]

theorem mem_sortStrings (x : String) (l : List String) :
    x ∈ sortStrings l ↔ x ∈ l :=
  (List.perm_insertionSort _ l).mem_iff

theorem mem_sortPairsStr (x : String × String) (l : List (String × String)) :
    x ∈ sortPairsStr l ↔ x ∈ l :=
  (List.perm_insertionSort _ l).mem_iff

/-- Two key-sorted association lists with distinct keys and the same
members are equal. -/
theorem sortedPairsExt : ∀ (l₁ l₂ : List (String × String)),
    List.Sorted (fun a b : String × String => pyStrLe a.1 b.1 = true) l₁ →
    List.Sorted (fun a b : String × String => pyStrLe a.1 b.1 = true) l₂ →
    (l₁.map Prod.fst).Nodup → (l₂.map Prod.fst).Nodup →
    (∀ x, x ∈ l₁ ↔ x ∈ l₂) → l₁ = l₂ := by
  intro l₁
  induction l₁ with
  | nil =>
    intro l₂ _ _ _ _ hmem
    cases l₂ with
    | nil => rfl
    | cons b t₂ => exact absurd ((hmem b).mpr (List.mem_cons_self b t₂)) (by simp)
  | cons a t₁ ih =>
    intro l₂ hs₁ hs₂ hn₁ hn₂ hmem
    cases l₂ with
    | nil => exact absurd ((hmem a).mp (List.mem_cons_self a t₁)) (by simp)
    | cons b t₂ =>
      have hn₁' : a.1 ∉ t₁.map Prod.fst ∧ (t₁.map Prod.fst).Nodup := by
        rw [List.map_cons] at hn₁
        exact List.nodup_cons.mp hn₁
      have hn₂' : b.1 ∉ t₂.map Prod.fst ∧ (t₂.map Prod.fst).Nodup := by
        rw [List.map_cons] at hn₂
        exact List.nodup_cons.mp hn₂
      by_cases hab : a = b
      · subst hab
        have htail : t₁ = t₂ := by
          apply ih t₂ (List.sorted_cons.mp hs₁).2 (List.sorted_cons.mp hs₂).2
            hn₁'.2 hn₂'.2
          intro x
          constructor
          · intro hx
            rcases List.mem_cons.mp ((hmem x).mp (List.mem_cons_of_mem a hx)) with h | h
            · subst h
              exact absurd (List.mem_map_of_mem Prod.fst hx) hn₁'.1
            · exact h
          · intro hx
            rcases List.mem_cons.mp ((hmem x).mpr (List.mem_cons_of_mem a hx)) with h | h
            · subst h
              exact absurd (List.mem_map_of_mem Prod.fst hx) hn₂'.1
            · exact h
        rw [htail]
      · exfalso
        have ha2 : a ∈ t₂ := by
          rcases List.mem_cons.mp ((hmem a).mp (List.mem_cons_self a t₁)) with h | h
          · exact absurd h hab
          · exact h
        have hb1 : b ∈ t₁ := by
          rcases List.mem_cons.mp ((hmem b).mpr (List.mem_cons_self b t₂)) with h | h
          · exact absurd h.symm hab
          · exact h
        have hle₁ : pyStrLe a.1 b.1 = true := (List.sorted_cons.mp hs₁).1 b hb1
        have hle₂ : pyStrLe b.1 a.1 = true := (List.sorted_cons.mp hs₂).1 a ha2
        have hkey : a.1 = b.1 := pyStrLe_antisymm _ _ hle₁ hle₂
        have : a.1 ∈ t₁.map Prod.fst := hkey ▸ List.mem_map_of_mem Prod.fst hb1
        exact hn₁'.1 this

/-- The sort used by `dumps` for object entries is sorted. -/
theorem sorted_sortPairsStr (l : List (String × String)) :
    List.Sorted (fun a b : String × String => pyStrLe a.1 b.1 = true) (sortPairsStr l) := by
  haveI : IsTotal (String × String) (fun a b => pyStrLe a.1 b.1 = true) :=
    ⟨fun a b => pyStrLe_total a.1 b.1⟩
  haveI : IsTrans (String × String) (fun a b => pyStrLe a.1 b.1 = true) :=
    ⟨fun a b c => pyStrLe_trans a.1 b.1 c.1⟩
  exact List.sorted_insertionSort _ l

theorem JsonEntries.entriesInduct (P : JsonEntries → Prop) (nil : P .nil)
    (cons : ∀ k v t, P t → P (.cons k v t)) : ∀ es, P es
  | .nil => nil
  | .cons k v t => cons k v t (entriesInduct P nil cons t)

theorem JsonList.elemsInduct (P : JsonList → Prop) (nil : P .nil)
    (cons : ∀ x t, P t → P (.cons x t)) : ∀ xs, P xs
  | .nil => nil
  | .cons x t => cons x t (elemsInduct P nil cons t)

theorem sortPairsStr_perm (l : List (String × String)) : (sortPairsStr l).Perm l :=
  List.perm_insertionSort _ l

theorem JsonEntries.toList_length (es : JsonEntries) : es.toList.length = es.length := by
  induction es using JsonEntries.entriesInduct with
  | nil => rfl
  | cons k v t ih => simp [JsonEntries.toList, JsonEntries.length, ih]

theorem JsonEntries.keys_eq_map (es : JsonEntries) : es.keys = es.toList.map Prod.fst := by
  induction es using JsonEntries.entriesInduct with
  | nil => rfl
  | cons k v t ih => simp [JsonEntries.toList, JsonEntries.keys, ih]

theorem JsonEntries.dumpsEntries_eq (es : JsonEntries) :
    es.dumpsEntries = es.toList.map (fun kv => (kv.1, kv.2.dumps)) := by
  induction es using JsonEntries.entriesInduct with
  | nil => rfl
  | cons k v t ih => simp [JsonEntries.toList, JsonEntries.dumpsEntries, ih]

theorem JsonEntries.hasKey_iff (k : String) (es : JsonEntries) :
    es.hasKey k = true ↔ k ∈ es.keys := by
  induction es using JsonEntries.entriesInduct with
  | nil => simp [JsonEntries.hasKey, JsonEntries.keys]
  | cons k₁ v t ih =>
    simp only [JsonEntries.hasKey, JsonEntries.keys, Bool.or_eq_true, beq_iff_eq,
      List.mem_cons, ih]
    constructor
    · rintro (h | h)
      · exact Or.inl h.symm
      · exact Or.inr h
    · rintro (h | h)
      · exact Or.inl h.symm
      · exact Or.inr h

theorem JsonEntries.keysNodupB_iff (es : JsonEntries) :
    es.keysNodupB = true ↔ es.keys.Nodup := by
  induction es using JsonEntries.entriesInduct with
  | nil => simp [JsonEntries.keysNodupB, JsonEntries.keys]
  | cons k v t ih =>
    simp only [JsonEntries.keysNodupB, Bool.and_eq_true, Bool.not_eq_true',
      JsonEntries.keys, List.nodup_cons, ih]
    constructor
    · rintro ⟨h1, h2⟩
      refine ⟨fun hk => ?_, h2⟩
      rw [(JsonEntries.hasKey_iff k t).mpr hk] at h1
      exact Bool.noConfusion h1
    · rintro ⟨h1, h2⟩
      refine ⟨?_, h2⟩
      cases hh : t.hasKey k
      · rfl
      · exact absurd ((JsonEntries.hasKey_iff k t).mp hh) h1

theorem JsonEntries.lookup_mem {es : JsonEntries} {k : String} {v : Json}
    (h : es.lookup k = some v) : (k, v) ∈ es.toList := by
  induction es using JsonEntries.entriesInduct with
  | nil => simp [JsonEntries.lookup] at h
  | cons k₁ v₁ t ih =>
    simp only [JsonEntries.lookup] at h
    by_cases hk : k₁ = k
    · rw [if_pos hk] at h
      subst hk
      simp [JsonEntries.toList, Option.some.inj h]
    · rw [if_neg hk] at h
      simp [JsonEntries.toList]
      right
      exact ih h

theorem JsonEntries.key_mem_of_mem {es : JsonEntries} {k : String} {v : Json}
    (h : (k, v) ∈ es.toList) : k ∈ es.keys := by
  rw [JsonEntries.keys_eq_map]
  exact List.mem_map_of_mem Prod.fst h

theorem JsonEntries.lookup_eq_of_mem {es : JsonEntries} {k : String} {v : Json}
    (hn : es.keysNodupB = true) (hm : (k, v) ∈ es.toList) : es.lookup k = some v := by
  induction es using JsonEntries.entriesInduct with
  | nil => simp [JsonEntries.toList] at hm
  | cons k₁ v₁ t ih =>
    simp only [JsonEntries.keysNodupB, Bool.and_eq_true, Bool.not_eq_true'] at hn
    simp only [JsonEntries.toList, List.mem_cons] at hm
    rcases hm with hm | hm
    · rw [Prod.mk.injEq] at hm
      simp [JsonEntries.lookup, hm.1, hm.2]
    · have hkt : k ∈ t.keys := JsonEntries.key_mem_of_mem hm
      have hne : k₁ ≠ k := by
        intro hk
        subst hk
        rw [(JsonEntries.hasKey_iff k₁ t).mpr hkt] at hn
        exact Bool.noConfusion hn.1
      simp only [JsonEntries.lookup, if_neg hne]
      exact ih hn.2 hm

theorem sizeOf_lt_of_mem_entries : ∀ {es : JsonEntries} {k : String} {v : Json},
    (k, v) ∈ es.toList → sizeOf v < sizeOf es := by
  intro es
  induction es using JsonEntries.entriesInduct with
  | nil => intro k v h; simp [JsonEntries.toList] at h
  | cons k₁ v₁ t ih =>
    intro k v h
    simp only [JsonEntries.toList, List.mem_cons] at h
    rcases h with h | h
    · rw [Prod.mk.injEq] at h
      rw [← h.2]
      simp
      omega
    · have := ih h
      simp
      omega

theorem sizeOf_lt_of_mem_list : ∀ {xs : JsonList} {x : Json},
    x ∈ xs.toList → sizeOf x < sizeOf xs := by
  intro xs
  induction xs using JsonList.elemsInduct with
  | nil => intro x h; simp [JsonList.toList] at h
  | cons y t ih =>
    intro x h
    simp only [JsonList.toList, List.mem_cons] at h
    rcases h with h | h
    · rw [h]; simp; omega
    · have := ih h
      simp
      omega

theorem equivEntries_iff (es fs : JsonEntries) :
    JsonEntries.equivEntries es fs = true ↔
      ∀ kv ∈ es.toList, ∃ w, fs.lookup kv.1 = some w ∧ Json.equiv kv.2 w = true := by
  induction es using JsonEntries.entriesInduct with
  | nil => simp [JsonEntries.equivEntries, JsonEntries.toList]
  | cons k v t ih =>
    simp only [JsonEntries.equivEntries, Bool.and_eq_true, JsonEntries.toList,
      List.mem_cons, ih]
    constructor
    · intro h kv hkv
      rcases hkv with hkv | hkv
      · subst hkv
        cases hl : fs.lookup k with
        | none => rw [hl] at h; exact absurd h.1 (by simp)
        | some w =>
          rw [hl] at h
          exact ⟨w, rfl, h.1⟩
      · exact h.2 kv hkv
    · intro h
      constructor
      · rcases h (k, v) (Or.inl rfl) with ⟨w, hw, he⟩
        rw [hw]
        exact he
      · intro kv hkv
        exact h kv (Or.inr hkv)

theorem dumpsList_eq_of_equivList : ∀ (xs ys : JsonList),
    (∀ x ∈ xs.toList, ∀ b, Json.equiv x b = true → x.dumps = b.dumps) →
    JsonList.equivList xs ys = true → xs.dumpsList = ys.dumpsList := by
  intro xs
  induction xs using JsonList.elemsInduct with
  | nil =>
    intro ys _ heq
    cases ys with
    | nil => rfl
    | cons y u => simp [JsonList.equivList] at heq
  | cons x t ih =>
    intro ys hIH heq
    cases ys with
    | nil => simp [JsonList.equivList] at heq
    | cons y u =>
      simp only [JsonList.equivList, Bool.and_eq_true] at heq
      simp only [JsonList.dumpsList]
      rw [hIH x (by simp [JsonList.toList]) y heq.1,
        ih u (fun z hz b hb => hIH z (by simp [JsonList.toList, hz]) b hb) heq.2]

/-- Sorted-key serialisation of two objects with distinct keys, equal
entry counts and pointwise-equivalent values at equal keys is equal. -/
theorem objDumpsEq (es fs : JsonEntries)
    (hIH : ∀ k v, (k, v) ∈ es.toList → ∀ b, Json.equiv v b = true → v.dumps = b.dumps)
    (hn₁ : es.keysNodupB = true) (hn₂ : fs.keysNodupB = true)
    (hlen : es.length = fs.length)
    (hent : JsonEntries.equivEntries es fs = true) :
    sortPairsStr es.dumpsEntries = sortPairsStr fs.dumpsEntries := by
  have hfst : ∀ gs : JsonEntries,
      gs.dumpsEntries.map Prod.fst = gs.keys := by
    intro gs
    rw [JsonEntries.dumpsEntries_eq, List.map_map, JsonEntries.keys_eq_map]
    rfl
  apply sortedPairsExt _ _ (sorted_sortPairsStr _) (sorted_sortPairsStr _)
  · rw [((sortPairsStr_perm es.dumpsEntries).map Prod.fst).nodup_iff, hfst]
    exact (JsonEntries.keysNodupB_iff es).mp hn₁
  · rw [((sortPairsStr_perm fs.dumpsEntries).map Prod.fst).nodup_iff, hfst]
    exact (JsonEntries.keysNodupB_iff fs).mp hn₂
  · intro x
    rw [mem_sortPairsStr, mem_sortPairsStr, JsonEntries.dumpsEntries_eq,
      JsonEntries.dumpsEntries_eq]
    constructor
    · intro hx
      rcases List.mem_map.mp hx with ⟨kv, hkv, hre⟩
      rcases (equivEntries_iff es fs).mp hent kv hkv with ⟨w, hlw, hew⟩
      have hdw : kv.2.dumps = w.dumps := hIH kv.1 kv.2 hkv w hew
      apply List.mem_map.mpr
      refine ⟨(kv.1, w), JsonEntries.lookup_mem hlw, ?_⟩
      rw [← hre]
      simp [hdw]
    · intro hx
      rcases List.mem_map.mp hx with ⟨kw, hkw, hre⟩
      have hkeq : es.keys.toFinset = fs.keys.toFinset := by
        apply Finset.eq_of_subset_of_card_le
        · intro k hk
          rw [List.mem_toFinset] at hk ⊢
          rw [JsonEntries.keys_eq_map] at hk
          rcases List.mem_map.mp hk with ⟨kv, hkv, hfstk⟩
          rcases (equivEntries_iff es fs).mp hent kv hkv with ⟨w, hlw, _⟩
          exact hfstk ▸ JsonEntries.key_mem_of_mem (JsonEntries.lookup_mem hlw)
        · rw [List.toFinset_card_of_nodup ((JsonEntries.keysNodupB_iff es).mp hn₁),
            List.toFinset_card_of_nodup ((JsonEntries.keysNodupB_iff fs).mp hn₂),
            JsonEntries.keys_eq_map, JsonEntries.keys_eq_map,
            List.length_map, List.length_map,
            JsonEntries.toList_length, JsonEntries.toList_length, hlen]
      have hkes : kw.1 ∈ es.keys := by
        have h1 : kw.1 ∈ fs.keys := JsonEntries.key_mem_of_mem hkw
        have h2 := List.mem_toFinset.mpr h1
        rw [← hkeq] at h2
        exact List.mem_toFinset.mp h2
      rw [JsonEntries.keys_eq_map] at hkes
      rcases List.mem_map.mp hkes with ⟨kv, hkv, hfstk⟩
      rcases (equivEntries_iff es fs).mp hent kv hkv with ⟨w, hlw, hew⟩
      have hwk : w = kw.2 := by
        have h3 : fs.lookup kv.1 = some kw.2 := by
          apply JsonEntries.lookup_eq_of_mem hn₂
          rw [hfstk]
          exact (Prod.mk.eta ▸ hkw)
        rw [h3] at hlw
        exact (Option.some.inj hlw).symm
      have hdw : kv.2.dumps = kw.2.dumps := by
        rw [hIH kv.1 kv.2 hkv w hew, hwk]
      apply List.mem_map.mpr
      refine ⟨kv, hkv, ?_⟩
      rw [← hre]
      simp [hdw, hfstk]

/-- Values with the same content up to dict insertion order have the same
sorted-key JSON serialisation. -/
theorem dumps_eq_of_equiv : ∀ (a b : Json), Json.equiv a b = true → a.dumps = b.dumps := by
  suffices H : ∀ (n : Nat) (a b : Json), sizeOf a ≤ n → Json.equiv a b = true →
      a.dumps = b.dumps by
    intro a b h
    exact H (sizeOf a) a b le_rfl h
  intro n
  induction n with
  | zero =>
    intro a b hle _
    exfalso
    cases a <;> simp at hle
  | succ n ih =>
    intro a b hle heq
    cases a with
    | null =>
      cases b with
      | null => rfl
      | bool _ => simp [Json.equiv] at heq
      | num _ => simp [Json.equiv] at heq
      | str _ => simp [Json.equiv] at heq
      | arr _ => simp [Json.equiv] at heq
      | obj _ => simp [Json.equiv] at heq
    | bool v =>
      cases b with
      | bool w =>
        have hvw : v = w := by simpa [Json.equiv] using heq
        rw [hvw]
      | null => simp [Json.equiv] at heq
      | num _ => simp [Json.equiv] at heq
      | str _ => simp [Json.equiv] at heq
      | arr _ => simp [Json.equiv] at heq
      | obj _ => simp [Json.equiv] at heq
    | num v =>
      cases b with
      | num w =>
        have hvw : v = w := by simpa [Json.equiv] using heq
        rw [hvw]
      | null => simp [Json.equiv] at heq
      | bool _ => simp [Json.equiv] at heq
      | str _ => simp [Json.equiv] at heq
      | arr _ => simp [Json.equiv] at heq
      | obj _ => simp [Json.equiv] at heq
    | str s =>
      cases b with
      | str u =>
        have hvw : s = u := by simpa [Json.equiv] using heq
        rw [hvw]
      | null => simp [Json.equiv] at heq
      | bool _ => simp [Json.equiv] at heq
      | num _ => simp [Json.equiv] at heq
      | arr _ => simp [Json.equiv] at heq
      | obj _ => simp [Json.equiv] at heq
    | arr xs =>
      cases b with
      | arr ys =>
        simp only [Json.equiv] at heq
        simp only [Json.dumps]
        rw [dumpsList_eq_of_equivList xs ys ?_ heq]
        intro x hx bb hb
        apply ih x bb ?_ hb
        have h1 := sizeOf_lt_of_mem_list hx
        have h2 : sizeOf (Json.arr xs) ≤ n + 1 := hle
        simp at h2
        omega
      | null => simp [Json.equiv] at heq
      | bool _ => simp [Json.equiv] at heq
      | num _ => simp [Json.equiv] at heq
      | str _ => simp [Json.equiv] at heq
      | obj _ => simp [Json.equiv] at heq
    | obj es =>
      cases b with
      | obj fs =>
        simp only [Json.equiv, Bool.and_eq_true, beq_iff_eq] at heq
        obtain ⟨⟨⟨hn₁, hn₂⟩, hlen⟩, hent⟩ := heq
        simp only [Json.dumps]
        rw [objDumpsEq es fs ?_ hn₁ hn₂ hlen hent]
        intro k v hm bb hb
        apply ih v bb ?_ hb
        have h1 := sizeOf_lt_of_mem_entries hm
        have h2 : sizeOf (Json.obj es) ≤ n + 1 := hle
        simp at h2
        omega
      | null => simp [Json.equiv] at heq
      | bool _ => simp [Json.equiv] at heq
      | num _ => simp [Json.equiv] at heq
      | str _ => simp [Json.equiv] at heq
      | arr _ => simp [Json.equiv] at heq

/-- C5: the per-element signature hash is a pure function of the
normalized element content: whenever two element-data values normalize
successfully to records with the same content up to dict insertion
order, `_create_element_hash` produces identical digests — the sorted-key
JSON serialisation makes the digest independent of how the dicts were
built up. -/
theorem C5_hash_determinism (sensitivityLevel elementName : String) (d₁ d₂ n₁ n₂ : Json)
    (h₁ : normalizeElementDataE sensitivityLevel elementName d₁ = .ok n₁)
    (h₂ : normalizeElementDataE sensitivityLevel elementName d₂ = .ok n₂)
    (heq : Json.equiv n₁ n₂ = true) :
    createElementHashE sensitivityLevel elementName d₁ =
      createElementHashE sensitivityLevel elementName d₂ := by
  simp only [createElementHashE, bind, Except.bind, h₁, h₂]
  rw [dumps_eq_of_equiv n₁ n₂ heq]

set_option maxRecDepth 100000 in
/-- Witness for C5: a class whose `methods` dict is given in two insertion
orders hashes identically. -/
theorem C5_hash_determinism_witness :
    normalizeElementDataE "strict" "C" c5d1 = .ok c5n1 ∧
    normalizeElementDataE "strict" "C" c5d2 = .ok c5n2 ∧
    Json.equiv c5n1 c5n2 = true ∧
    createElementHashE "strict" "C" c5d1 = createElementHashE "strict" "C" c5d2 :=
  ⟨by decide, by decide, by decide,
    C5_hash_determinism "strict" "C" c5d1 c5d2 c5n1 c5n2 (by decide) (by decide) (by decide)⟩

/-- C1: `compare_signatures` computes the four name sets by key-set
difference and hash (in)equality; identical inputs give empty
added/removed/modified; and the foo/bar scenario behaves as specified. -/
theorem C1_compare_signatures :
    (∀ (old new : List (String × String)) (k : String),
      (k ∈ (compareSignatures old new).added ↔
        k ∈ new.map Prod.fst ∧ k ∉ old.map Prod.fst) ∧
      (k ∈ (compareSignatures old new).removed ↔
        k ∈ old.map Prod.fst ∧ k ∉ new.map Prod.fst) ∧
      (k ∈ (compareSignatures old new).modified ↔
        k ∈ old.map Prod.fst ∧ k ∈ new.map Prod.fst ∧ old.lookup k ≠ new.lookup k) ∧
      (k ∈ (compareSignatures old new).unchanged ↔
        k ∈ old.map Prod.fst ∧ k ∈ new.map Prod.fst ∧ old.lookup k = new.lookup k)) ∧
    (∀ old : List (String × String),
      (compareSignatures old old).added = [] ∧
      (compareSignatures old old).removed = [] ∧
      (compareSignatures old old).modified = []) ∧
    (∀ a b c : String, a ≠ b →
      (compareSignatures [("foo", a)] [("foo", b), ("bar", c)]).added = ["bar"] ∧
      (compareSignatures [("foo", a)] [("foo", b), ("bar", c)]).removed = [] ∧
      (compareSignatures [("foo", a)] [("foo", b), ("bar", c)]).modified = ["foo"]) := by
  refine ⟨?_, ?_, ?_⟩
  · intro old new k
    refine ⟨?_, ?_, ?_, ?_⟩ <;>
      simp [compareSignatures, mem_sortStrings, List.mem_filter, List.mem_dedup] <;>
      tauto
  · intro old
    have hfil : ∀ l : List String, (l.filter (fun k => k ∉ l)) = [] := by
      intro l
      rw [List.filter_eq_nil_iff]
      intro a ha
      simp [ha]
    have hlk : ∀ l : List String,
        (l.filter (fun k => old.lookup k ≠ old.lookup k)) = [] := by
      intro l
      rw [List.filter_eq_nil_iff]
      intro a _
      simp
    refine ⟨?_, ?_, ?_⟩
    · simp only [compareSignatures]
      rw [hfil]
      rfl
    · simp only [compareSignatures]
      rw [hfil]
      rfl
    · simp only [compareSignatures]
      rw [hlk]
      rfl
  · intro a b c h
    have hlk : List.lookup "foo" [("foo", a)] ≠ List.lookup "foo" [("foo", b), ("bar", c)] := by
      simp [List.lookup, h]
    refine ⟨rfl, rfl, ?_⟩
    simp only [compareSignatures]
    simp [List.filter, List.lookup, h]
    rfl

/-- C3 counterexample: the element name `deprecated_data` contains the
substring `deprecated`, yet `classify_changes` grades its removal
`critical` (the core-pattern rule runs after the deprecation rule and
overwrites it), not `medium` as the claim requires. -/
theorem C3_counterexample :
    strContainsSub (pyLower "deprecated_data") "deprecated" = true ∧
    (classifyRemovals ["deprecated_data"]).map (fun c => (c.severity, c.breaking)) =
      [("critical", true)] ∧
    ("critical" : String) ≠ "medium" :=
  ⟨by decide, by decide, by decide⟩

/-- C3 (amended): every removal is classified breaking; the severity is
`critical` by default, downgraded by the underscore rule to `high` and by
the `deprecated` rule to `medium`, and escalated back to `critical` by
the core-pattern rule, the three rules applying in that order with later
rules overriding earlier ones; removing `collector_run` is
critical/breaking. -/
theorem C3_removal_classification :
    (∀ (removed : List String) (e : String), e ∈ removed →
      ∃ c, c ∈ classifyRemovals removed ∧ c.element = e ∧ c.change_type = "removal" ∧
        c.breaking = true ∧ c.compatibility_impact = "breaking" ∧
        c.severity =
          (if corePatterns.any (fun p => strContainsSub (pyLower e) p) then "critical"
           else if strContainsSub (pyLower e) "deprecated" then "medium"
           else if pyStartsWith e "_" then "high"
           else "critical")) ∧
    (classifyRemovals ["collector_run"]).map (fun c => (c.severity, c.breaking)) =
      [("critical", true)] := by
  constructor
  · intro removed e he
    refine ⟨_, List.mem_map_of_mem _ he, ?_⟩
    by_cases h1 : pyStartsWith e "_" = true <;>
      by_cases h2 : strContainsSub (pyLower e) "deprecated" = true <;>
      by_cases h3 : corePatterns.any (fun p => strContainsSub (pyLower e) p) = true <;>
      simp [applyRemovalRules, h1, h2, h3]
  · rfl

/-- C4: `suggest_version_bump` is the three-branch lookup major/minor/
patch/none, and 0 breaking + 2 additions + total 2 suggests `minor`. -/
theorem C4_suggest_version_bump :
    (∀ (cc : ClassifiedChanges) (v : String),
      ((suggestVersionBump cc v).suggested_bump = some "major" ↔
        0 < cc.summary.breaking_changes_count) ∧
      ((suggestVersionBump cc v).suggested_bump = some "minor" ↔
        cc.summary.breaking_changes_count = 0 ∧
          0 < (cc.summary.by_type.lookup "addition").getD 0) ∧
      ((suggestVersionBump cc v).suggested_bump = some "patch" ↔
        cc.summary.breaking_changes_count = 0 ∧
          (cc.summary.by_type.lookup "addition").getD 0 = 0 ∧
          0 < cc.summary.total_changes) ∧
      ((suggestVersionBump cc v).suggested_bump = none ↔
        cc.summary.breaking_changes_count = 0 ∧
          (cc.summary.by_type.lookup "addition").getD 0 = 0 ∧
          cc.summary.total_changes = 0)) ∧
    (suggestVersionBump c4cc "1.2.3").suggested_bump = some "minor" := by
  constructor
  · intro cc v
    refine ⟨?_, ?_, ?_, ?_⟩ <;>
      (simp only [suggestVersionBump]; split_ifs <;> simp_all <;> omega)
  · simp [suggestVersionBump, c4cc, List.lookup]

/-- C2: the naive breaking-change list contains a high entry per removed
element, a medium entry per hash-modified element, a high entry per
function with removed parameters, a medium entry per function with added
parameters and a high entry per type change; and the summary's
compatibility verdict is "breaking" exactly when the list is nonempty.
These properties hold for every signature-change/api-change input, hence
in particular for every diff `compare_versions` produces. -/
theorem C2_breaking_changes (sc : SignatureChanges) (ac : ApiChanges) (dc : DocChanges) :
    (∀ e ∈ sc.removed, ∃ bc ∈ analyzeBreakingChanges sc ac,
      bc.change_type = "removal" ∧ bc.element = e ∧ bc.severity = "high") ∧
    (∀ e ∈ sc.modified, ∃ bc ∈ analyzeBreakingChanges sc ac,
      bc.change_type = "signature_change" ∧ bc.element = e ∧ bc.severity = "medium") ∧
    (∀ fc ∈ ac.parameter_changes, fc.2.removed_parameters ≠ [] →
      ∃ bc ∈ analyzeBreakingChanges sc ac,
        bc.change_type = "parameter_removal" ∧ bc.element = fc.1 ∧ bc.severity = "high") ∧
    (∀ fc ∈ ac.parameter_changes, fc.2.added_parameters ≠ [] →
      ∃ bc ∈ analyzeBreakingChanges sc ac,
        bc.change_type = "parameter_addition" ∧ bc.element = fc.1 ∧ bc.severity = "medium") ∧
    (∀ tc ∈ ac.type_changes, ∃ bc ∈ analyzeBreakingChanges sc ac,
      bc.change_type = "type_change" ∧ bc.element = tc.1 ∧ bc.severity = "high") ∧
    ((generateSummary sc (analyzeBreakingChanges sc ac) dc).compatibility_assessment =
        "breaking" ↔ analyzeBreakingChanges sc ac ≠ []) := by
  refine ⟨?_, ?_, ?_, ?_, ?_, ?_⟩
  · intro e he
    refine ⟨{ change_type := "removal"
              element := e
              severity := "high"
              description := "API element '" ++ e ++ "' was removed" }, ?_, rfl, rfl, rfl⟩
    simp only [analyzeBreakingChanges, List.mem_append]
    exact Or.inl (Or.inl (Or.inl (List.mem_map_of_mem _ he)))
  · intro e he
    refine ⟨{ change_type := "signature_change"
              element := e
              severity := "medium"
              description := "API signature for '" ++ e ++ "' was modified" }, ?_, rfl, rfl, rfl⟩
    simp only [analyzeBreakingChanges, List.mem_append]
    exact Or.inl (Or.inl (Or.inr (List.mem_map_of_mem _ he)))
  · intro fc hfc hne
    refine ⟨{ change_type := "parameter_removal"
              element := fc.1
              severity := "high"
              description := "Parameters removed from '" ++ fc.1 ++ "': " ++
                pyReprStrList fc.2.removed_parameters }, ?_, rfl, rfl, rfl⟩
    simp only [analyzeBreakingChanges, List.mem_append]
    refine Or.inl (Or.inr ?_)
    rw [List.mem_flatten]
    refine ⟨_, List.mem_map_of_mem _ hfc, ?_⟩
    rw [List.mem_append]
    left
    rw [if_neg (by simpa [List.isEmpty_iff] using hne)]
    exact List.mem_singleton.mpr rfl
  · intro fc hfc hne
    refine ⟨{ change_type := "parameter_addition"
              element := fc.1
              severity := "medium"
              description := "Parameters added to '" ++ fc.1 ++ "': " ++
                pyReprStrList fc.2.added_parameters }, ?_, rfl, rfl, rfl⟩
    simp only [analyzeBreakingChanges, List.mem_append]
    refine Or.inl (Or.inr ?_)
    rw [List.mem_flatten]
    refine ⟨_, List.mem_map_of_mem _ hfc, ?_⟩
    rw [List.mem_append]
    right
    rw [if_neg (by simpa [List.isEmpty_iff] using hne)]
    exact List.mem_singleton.mpr rfl
  · intro tc htc
    refine ⟨{ change_type := "type_change"
              element := tc.1
              severity := "high"
              description := "Type of '" ++ tc.1 ++ "' changed from " ++ pyStr tc.2.old ++
                " to " ++ pyStr tc.2.new }, ?_, rfl, rfl, rfl⟩
    simp only [analyzeBreakingChanges, List.mem_append]
    exact Or.inr (List.mem_map_of_mem _ htc)
  · by_cases hb : analyzeBreakingChanges sc ac = []
    · simp [generateSummary, hb]
    · simp [generateSummary, hb, List.isEmpty_iff]

/-- Witness for C2 at a concrete diff with one removal, one modification,
one parameter change and one type change. -/
theorem C2_breaking_changes_witness :
    ("gone" ∈ c2sc.removed ∧
      ∃ bc ∈ analyzeBreakingChanges c2sc c2ac,
        bc.change_type = "removal" ∧ bc.element = "gone" ∧ bc.severity = "high") ∧
    (("f", ({ added_parameters := ["p"]
              removed_parameters := ["q"]
              modified_parameters := [] } : ParamChangeSet)) ∈ c2ac.parameter_changes ∧
      ∃ bc ∈ analyzeBreakingChanges c2sc c2ac,
        bc.change_type = "parameter_removal" ∧ bc.element = "f" ∧ bc.severity = "high") ∧
    (analyzeBreakingChanges c2sc c2ac ≠ [] ∧
      (generateSummary c2sc (analyzeBreakingChanges c2sc c2ac) c2dc).compatibility_assessment =
        "breaking") :=
  ⟨⟨by decide, (C2_breaking_changes c2sc c2ac c2dc).1 "gone" (by decide)⟩,
   ⟨by decide, (C2_breaking_changes c2sc c2ac c2dc).2.2.1
      ("f", { added_parameters := ["p"]
              removed_parameters := ["q"]
              modified_parameters := [] }) (by decide) (by decide)⟩,
   ⟨by decide, (C2_breaking_changes c2sc c2ac c2dc).2.2.2.2.2.mpr (by decide)⟩⟩

/-- C10: `hash_api_signature` returns, for every dict input whose
`public_api` field (defaulting to empty) is a dict, one entry per element
in order — so the result's key set is exactly the `public_api` key set —
and the entry value is the element digest, or the `"error"` sentinel when
per-element hashing raises. -/
theorem C10_hash_api_total (sensitivityLevel : String) (apiData pes : JsonEntries)
    (hpub : (apiData.lookup "public_api").getD (Json.mkObj []) = Json.obj pes) :
    hashApiSignatureE sensitivityLevel apiData =
      .ok (pes.toList.map (fun kv =>
        (kv.1, elementHashOrError sensitivityLevel kv.1 kv.2))) ∧
    ∀ out, hashApiSignatureE sensitivityLevel apiData = .ok out →
      out.map Prod.fst = pes.keys := by
  have h1 : hashApiSignatureE sensitivityLevel apiData =
      .ok (pes.toList.map (fun kv =>
        (kv.1, elementHashOrError sensitivityLevel kv.1 kv.2))) := by
    simp [hashApiSignatureE, hpub, pyItems]
  refine ⟨h1, ?_⟩
  intro out hout
  rw [h1] at hout
  have : out = pes.toList.map (fun kv =>
      (kv.1, elementHashOrError sensitivityLevel kv.1 kv.2)) :=
    (Except.ok.inj hout).symm
  rw [this, List.map_map, JsonEntries.keys_eq_map]
  rfl

/-- Witness for C10: an API with one hashable element and one element
whose data is not a dict, which receives the `"error"` sentinel. -/
theorem C10_hash_api_total_witness :
    ((c10api.lookup "public_api").getD (Json.mkObj []) = Json.obj c10pes) ∧
    hashApiSignatureE "strict" c10api =
      .ok (c10pes.toList.map (fun kv => (kv.1, elementHashOrError "strict" kv.1 kv.2))) ∧
    elementHashOrError "strict" "bad" (.str "oops") = "error" :=
  ⟨by decide, (C10_hash_api_total "strict" c10api c10pes (by decide)).1, by decide⟩

/-- C9: after every successful `register_version` exactly the newly
inserted row is flagged current (all previously current rows having been
cleared); a failing call (UNIQUE violation) leaves the store unchanged;
the other mutating operations never touch the `versions` rows; and the
at-most-one-current invariant is preserved. -/
theorem C9_current_version_exclusive :
    (∀ (db : TrackerDB) (vs : String) (sf nt : Option String) (ts : String)
        (db' : TrackerDB) (id : Nat),
      registerVersion db vs sf nt ts = (db', .ok id) →
        (db'.versions.filter (fun r => r.is_current)).map (fun r => r.id) = [id] ∧
        ∀ r ∈ db'.versions, r.id ≠ id → r.is_current = false) ∧
    (∀ (db : TrackerDB) (vs : String) (sf nt : Option String) (ts : String)
        (db' : TrackerDB) (e : PyErr),
      registerVersion db vs sf nt ts = (db', .error e) → db' = db) ∧
    (∀ (db : TrackerDB) (fv tv : String) (chs : List Json) (ts : String),
      ((recordChanges db fv tv chs ts).1).versions = db.versions) ∧
    (∀ (db : TrackerDB) (en dv : String) (r a : Option String) (rtv : Option String)
        (ts : String),
      ((addDeprecation db en dv r a rtv ts).1).versions = db.versions) ∧
    (∀ (db : TrackerDB) (vs : String) (sf nt : Option String) (ts : String),
      atMostOneCurrent db → atMostOneCurrent (registerVersion db vs sf nt ts).1) := by
  have hclr : ∀ (l : List VersionRow),
      (l.map (fun r => { r with is_current := false })).filter (fun r => r.is_current) = [] := by
    intro l
    rw [List.filter_eq_nil_iff]
    intro r hr
    rcases List.mem_map.mp hr with ⟨r₀, _, hr₀⟩
    rw [← hr₀]
    simp
  refine ⟨?_, ?_, ?_, ?_, ?_⟩
  · intro db vs sf nt ts db' id hreg
    by_cases hdup : db.versions.any (fun r => r.version_string == vs)
    · rw [registerVersion, if_pos hdup] at hreg
      exact absurd (congrArg Prod.snd hreg) (by simp)
    · rw [registerVersion, if_neg hdup] at hreg
      have hdb : db' = { db with
          versions := db.versions.map (fun r => { r with is_current := false }) ++
            [{ id := db.next_version_id, version_string := vs,
               major := (parseVersion vs).major, minor := (parseVersion vs).minor,
               patch := (parseVersion vs).patch,
               pre_release := (parseVersion vs).pre_release,
               build_metadata := (parseVersion vs).build_metadata,
               created_timestamp := ts, snapshot_file := sf,
               is_current := true, notes := nt }],
          next_version_id := db.next_version_id + 1 } :=
        (congrArg Prod.fst hreg).symm
      have hid : id = db.next_version_id :=
        (Except.ok.inj (congrArg Prod.snd hreg)).symm
      constructor
      · rw [hdb]
        simp only [List.filter_append, hclr, List.nil_append]
        simp [hid]
      · intro r hr hne
        rw [hdb] at hr
        simp only [List.mem_append, List.mem_map] at hr
        rcases hr with ⟨r₀, _, hr₀⟩ | hr
        · rw [← hr₀]
        · rw [List.mem_singleton.mp hr] at hne
          simp [hid] at hne
  · intro db vs sf nt ts db' e hreg
    by_cases hdup : db.versions.any (fun r => r.version_string == vs)
    · rw [registerVersion, if_pos hdup] at hreg
      exact (congrArg Prod.fst hreg).symm
    · rw [registerVersion, if_neg hdup] at hreg
      exact absurd (congrArg Prod.snd hreg) (by simp)
  · intro db fv tv chs ts
    unfold recordChanges
    split
    · rfl
    · split
      · rfl
      · split
        · rfl
        · rfl
  · intro db en dv r a rtv ts
    unfold addDeprecation
    split
    · rfl
    · rfl
  · intro db vs sf nt ts hone
    by_cases hdup : db.versions.any (fun r => r.version_string == vs)
    · rw [registerVersion, if_pos hdup]
      exact hone
    · rw [registerVersion, if_neg hdup]
      unfold atMostOneCurrent
      simp only [List.filter_append, hclr, List.nil_append]
      simp

/-- Witness for C9: registering `1.0.0` into an empty store makes its row
the unique current one. -/
theorem C9_current_version_exclusive_witness :
    registerVersion c9db0 "1.0.0" none none "2024-01-01T00:00:00" =
      (c9reg.1, .ok 1) ∧
    ((c9reg.1).versions.filter (fun r => r.is_current)).map (fun r => r.id) = [1] :=
  ⟨by decide,
    (C9_current_version_exclusive.1 c9db0 "1.0.0" none none "2024-01-01T00:00:00"
      c9reg.1 1 (by decide)).1⟩

theorem listIsPrefixOfAppend (a b : List Char) : a.isPrefixOf (a ++ b) = true := by
  induction a with
  | nil => cases b <;> rfl
  | cons x t ih => simp [List.isPrefixOf, ih]

theorem listIsSuffixOfAppend (a b : List Char) : b.isSuffixOf (a ++ b) = true := by
  simp only [List.isSuffixOf, List.reverse_append]
  exact listIsPrefixOfAppend _ _

theorem stringDataEq {a b : String} (h : a.data = b.data) : a = b := by
  cases a
  cases b
  exact congrArg String.mk h

/-- The filename written by `create_api_snapshot` matches its own
version's glob pattern. -/
theorem snapshotGlobMatch_self (version mid : String) :
    snapshotGlobMatch version
      ("api_snapshot_" ++ version ++ "_" ++ mid ++ ".json") = true := by
  unfold snapshotGlobMatch pyStartsWith pyEndsWith
  rw [Bool.and_eq_true, Bool.and_eq_true]
  refine ⟨⟨?_, ?_⟩, ?_⟩
  · show ("api_snapshot_" ++ version ++ "_").data.isPrefixOf
      (("api_snapshot_" ++ version ++ "_" ++ mid ++ ".json").data) = true
    have hd : ("api_snapshot_" ++ version ++ "_" ++ mid ++ ".json").data =
        ("api_snapshot_" ++ version ++ "_").data ++ (mid.data ++ ".json".data) := by
      show (("api_snapshot_" ++ version ++ "_").data ++ mid.data) ++ ".json".data =
        ("api_snapshot_" ++ version ++ "_").data ++ (mid.data ++ ".json".data)
      rw [List.append_assoc]
    rw [hd]
    exact listIsPrefixOfAppend _ _
  · exact listIsSuffixOfAppend _ _
  · apply decide_eq_true
    show ("api_snapshot_" ++ version ++ "_").length + 5 ≤
      ("api_snapshot_" ++ version ++ "_" ++ mid ++ ".json").length
    have h1 : ∀ s u : String, (s ++ u).length = s.length + u.length := by
      intro s u
      show (s.data ++ u.data).length = s.data.length + u.data.length
      exact List.length_append _ _
    simp only [h1]
    have h5 : (".json" : String).length = 5 := rfl
    rw [h5]
    omega

theorem pickLatest_lt (t : Nat) : ∀ (l : List FileEnt) (acc : FileEnt),
    acc.mtime < t → (∀ e ∈ l, e.mtime < t) →
    (l.foldl (fun acc e => if acc.mtime < e.mtime then e else acc) acc).mtime < t := by
  intro l
  induction l with
  | nil => intro acc hacc _; exact hacc
  | cons x rest ih =>
    intro acc hacc hl
    rw [List.foldl_cons]
    by_cases hx : acc.mtime < x.mtime
    · rw [if_pos hx]
      exact ih x (hl x (List.mem_cons_self x rest)) (fun e he => hl e (List.mem_cons_of_mem _ he))
    · rw [if_neg hx]
      exact ih acc hacc (fun e he => hl e (List.mem_cons_of_mem _ he))

theorem pickLatest_last (l : List FileEnt) (acc w : FileEnt)
    (hacc : acc.mtime < w.mtime) (hl : ∀ e ∈ l, e.mtime < w.mtime) :
    (l ++ [w]).foldl (fun acc e => if acc.mtime < e.mtime then e else acc) acc = w := by
  rw [List.foldl_append, List.foldl_cons, List.foldl_nil]
  rw [if_pos (pickLatest_lt w.mtime l acc hacc hl)]

/-- Loading right after a write whose mtime dominates every other file
returns the written content. -/
theorem loadLatest_writeLast (fs : SnapshotStore) (version fname : String)
    (t : Nat) (content : Json)
    (hmatch : snapshotGlobMatch version fname = true)
    (hold : ∀ e ∈ fs, e.mtime < t) :
    loadLatestSnapshot (writeFile fs fname t content) version = some content := by
  unfold loadLatestSnapshot writeFile
  rw [List.filter_append]
  have h1 : List.filter (fun e => snapshotGlobMatch version e.name)
      [(⟨fname, t, content⟩ : FileEnt)] = [⟨fname, t, content⟩] := by
    simp [hmatch]
  rw [h1]
  have hsub : ∀ e, e ∈ (fs.filter (fun e => e.name ≠ fname)).filter
      (fun e => snapshotGlobMatch version e.name) → e.mtime < t := by
    intro e he
    exact hold e (List.mem_filter.mp (List.mem_filter.mp he).1).1
  cases hp : (fs.filter (fun e => e.name ≠ fname)).filter
      (fun e => snapshotGlobMatch version e.name) with
  | nil => rfl
  | cons f rest =>
    have hf : f.mtime < t := hsub f (hp ▸ List.mem_cons_self f rest)
    have hrest : ∀ e ∈ rest ++ [(⟨fname, t, content⟩ : FileEnt)], True := fun _ _ => trivial
    show some ((rest ++ [(⟨fname, t, content⟩ : FileEnt)]).foldl
      (fun acc e => if acc.mtime < e.mtime then e else acc) f).content = some content
    rw [pickLatest_last rest f ⟨fname, t, content⟩ hf
      (fun e he => hsub e (hp ▸ List.mem_cons_of_mem _ he))]

/-- Writing a file whose name does not match the version's glob pattern
does not change what `_load_latest_snapshot` sees. -/
theorem loadLatest_writeFile_nonmatching (g : SnapshotStore) (version nm : String)
    (mt : Nat) (c : Json) (h : snapshotGlobMatch version nm = false) :
    loadLatestSnapshot (writeFile g nm mt c) version = loadLatestSnapshot g version := by
  unfold loadLatestSnapshot writeFile
  rw [List.filter_append]
  have h1 : List.filter (fun e => snapshotGlobMatch version e.name)
      [(⟨nm, mt, c⟩ : FileEnt)] = [] := by
    simp [h]
  rw [h1, List.append_nil]
  have h2 : (g.filter (fun e => e.name ≠ nm)).filter
      (fun e => snapshotGlobMatch version e.name) =
      g.filter (fun e => snapshotGlobMatch version e.name) := by
    rw [List.filter_filter]
    apply List.filter_congr
    intro e _
    cases hm : snapshotGlobMatch version e.name
    · simp
    · have hne : e.name ≠ nm := by
        intro hh
        rw [hh, h] at hm
        exact Bool.noConfusion hm
      simp [hne]
  rw [h2]

theorem loadLatest_after_nonmatching (version : String) :
    ∀ (ws : List FileEnt) (g : SnapshotStore),
    (∀ w ∈ ws, snapshotGlobMatch version w.name = false) →
    loadLatestSnapshot
      (ws.foldl (fun acc w => writeFile acc w.name w.mtime w.content) g) version =
      loadLatestSnapshot g version := by
  intro ws
  induction ws with
  | nil => intro g _; rfl
  | cons w rest ih =>
    intro g hws
    rw [List.foldl_cons]
    rw [ih (writeFile g w.name w.mtime w.content)
      (fun x hx => hws x (List.mem_cons_of_mem _ hx))]
    exact loadLatest_writeFile_nonmatching g version w.name w.mtime w.content
      (hws w (List.mem_cons_self w rest))

theorem exceptBindOk {α β : Type} {x : Except PyErr α} {f : α → Except PyErr β} {b : β}
    (h : x >>= f = .ok b) : ∃ a, x = .ok a ∧ f a = .ok b := by
  cases x with
  | error e => simp [Bind.bind, Except.bind] at h
  | ok v => exact ⟨v, rfl, by simpa [Bind.bind, Except.bind] using h⟩

theorem buildSnapshot_fields (api snap : Json) (version ts : String)
    (hb : buildSnapshotE api version ts = .ok snap) :
    jsonField snap "api_data" = some api ∧
    ∃ hashes, apiSignatureHashes api = .ok hashes ∧
      jsonField snap "signature_hashes" =
        some (Json.mkObj (hashes.map (fun kv => (kv.1, Json.str kv.2)))) := by
  unfold buildSnapshotE at hb
  rcases exceptBindOk hb with ⟨hashes, hh, hb⟩
  rcases exceptBindOk hb with ⟨pkgInfo, _, hb⟩
  rcases exceptBindOk hb with ⟨pkgName, _, hb⟩
  rcases exceptBindOk hb with ⟨publicApi, _, hb⟩
  rcases exceptBindOk hb with ⟨totalElements, _, hb⟩
  simp only [pure, Except.pure, Except.ok.injEq] at hb
  rw [← hb]
  refine ⟨?_, hashes, hh, ?_⟩
  · simp [jsonField, Json.mkObj, JsonEntries.ofList, JsonEntries.lookup]
  · simp [jsonField, Json.mkObj, JsonEntries.ofList, JsonEntries.lookup]

theorem createApiSnapshot_inv (fs : SnapshotStore) (t : Nat) (ts : String)
    (api : Json) (version : String) (fs1 : SnapshotStore) (fname : String)
    (hc : createApiSnapshotE fs t ts api version = .ok (fs1, fname)) :
    ∃ snap, buildSnapshotE api version ts = .ok snap ∧
      fname = "api_snapshot_" ++ version ++ "_" ++ String.mk (ts.data.take 10) ++ ".json" ∧
      fs1 = writeFile fs fname t snap := by
  unfold createApiSnapshotE at hc
  rcases exceptBindOk hc with ⟨snap, hb, hc⟩
  simp only [pure, Except.pure, Except.ok.injEq, Prod.mk.injEq] at hc
  refine ⟨snap, hb, hc.2.symm, ?_⟩
  rw [← hc.1, hc.2]

/-- C6 counterexample: writing a `1.0` snapshot and then a snapshot for
the different version `1.0_x` (no intervening write for `1.0`) makes
`_load_latest_snapshot("1.0")` return the `1.0_x` snapshot, because the
glob pattern `api_snapshot_1.0_*.json` also matches the other version's
filename; the reloaded `api_data` differs from the one written. -/
theorem C6_counterexample :
    (c6store.bind (fun fs => (loadLatestSnapshot fs "1.0").bind
      (fun s => jsonField s "api_data"))) = some c6apiB ∧
    c6apiB ≠ c6apiA :=
  ⟨by decide, by decide⟩

/-- C6 (amended): a snapshot written by `create_api_snapshot` and then
reloaded by `_load_latest_snapshot` — with no intervening write of any
file matching the version's glob pattern `api_snapshot_{version}_*.json`
(not merely no write for that exact version) — yields the written
`api_data` and `signature_hashes` values identically. -/
theorem C6_snapshot_roundtrip (fs : SnapshotStore) (t : Nat) (ts : String)
    (api : Json) (version : String) (fs1 : SnapshotStore) (fname : String)
    (ws : List FileEnt)
    (hold : ∀ e ∈ fs, e.mtime < t)
    (hcreate : createApiSnapshotE fs t ts api version = .ok (fs1, fname))
    (hws : ∀ w ∈ ws, snapshotGlobMatch version w.name = false) :
    ∃ snap,
      loadLatestSnapshot
        (ws.foldl (fun acc w => writeFile acc w.name w.mtime w.content) fs1) version =
        some snap ∧
      jsonField snap "api_data" = some api ∧
      ∃ hashes, apiSignatureHashes api = .ok hashes ∧
        jsonField snap "signature_hashes" =
          some (Json.mkObj (hashes.map (fun kv => (kv.1, Json.str kv.2)))) := by
  rcases createApiSnapshot_inv fs t ts api version fs1 fname hcreate with
    ⟨snap, hb, hfn, hfs1⟩
  rcases buildSnapshot_fields api snap version ts hb with ⟨had, hashes, hh, hsh⟩
  refine ⟨snap, ?_, had, hashes, hh, hsh⟩
  rw [loadLatest_after_nonmatching version ws fs1 hws, hfs1, hfn]
  exact loadLatest_writeLast fs version _ t snap (snapshotGlobMatch_self version _) hold

/-- Witness for C6 (amended) at a concrete store: one snapshot write
followed by an unrelated non-matching write. -/
theorem C6_snapshot_roundtrip_witness :
    (∀ e ∈ ([] : SnapshotStore), e.mtime < 0) ∧
    createApiSnapshotE [] 0 "2024-01-01T00:00:00" c6apiA "1.0" = .ok (c6fs1, c6fname) ∧
    (∀ w ∈ [(⟨"notes.txt", 7, Json.null⟩ : FileEnt)],
      snapshotGlobMatch "1.0" w.name = false) ∧
    (∃ snap,
      loadLatestSnapshot
        ([(⟨"notes.txt", 7, Json.null⟩ : FileEnt)].foldl
          (fun acc w => writeFile acc w.name w.mtime w.content) c6fs1) "1.0" =
        some snap ∧
      jsonField snap "api_data" = some c6apiA ∧
      ∃ hashes, apiSignatureHashes c6apiA = .ok hashes ∧
        jsonField snap "signature_hashes" =
          some (Json.mkObj (hashes.map (fun kv => (kv.1, Json.str kv.2))))) :=
  ⟨by decide, by decide, by decide,
    C6_snapshot_roundtrip [] 0 "2024-01-01T00:00:00" c6apiA "1.0" c6fs1 c6fname
      [⟨"notes.txt", 7, Json.null⟩] (by decide) (by decide) (by decide)⟩

theorem bindOkFwd {α β : Type} {x : Except PyErr α} {a : α} (h : x = .ok a)
    (f : α → Except PyErr β) : x >>= f = f a := by
  rw [h]
  rfl

theorem exceptBindOkIntro {α β : Type} {x : Except PyErr α} {f : α → Except PyErr β}
    (hx : ∃ a, x = .ok a) (hf : ∀ a, ∃ b, f a = .ok b) : ∃ b, x >>= f = .ok b := by
  rcases hx with ⟨a, ha⟩
  rcases hf a with ⟨b, hb⟩
  exact ⟨b, by rw [bindOkFwd ha, hb]⟩

theorem JsonList.toList_ofList (l : List Json) : (JsonList.ofList l).toList = l := by
  induction l with
  | nil => rfl
  | cons x t ih => simp [JsonList.ofList, JsonList.toList, ih]

theorem lookup_isSome_of_mem_keys {es : JsonEntries} {k : String} (h : k ∈ es.keys) :
    ∃ v, es.lookup k = some v := by
  induction es using JsonEntries.entriesInduct with
  | nil => simp [JsonEntries.keys] at h
  | cons k₁ v t ih =>
    simp only [JsonEntries.keys, List.mem_cons] at h
    by_cases hk : k₁ = k
    · exact ⟨v, by simp [JsonEntries.lookup, hk]⟩
    · rcases h with h | h
      · exact absurd h.symm hk
      · rcases ih h with ⟨w, hw⟩
        exact ⟨w, by simp [JsonEntries.lookup, hk, hw]⟩

theorem listLookupSome {β : Type} {l : List (String × β)} {k : String}
    (h : k ∈ l.map Prod.fst) : ∃ v, List.lookup k l = some v := by
  induction l with
  | nil => simp at h
  | cons kv t ih =>
    cases kv with
    | mk k₁ v₁ =>
      rw [List.map_cons, List.mem_cons] at h
      by_cases hk : k = k₁
      · exact ⟨v₁, by simp [List.lookup, hk]⟩
      · rcases h with h | h
        · exact absurd h hk
        · rcases ih h with ⟨w, hw⟩
          exact ⟨w, by simp [List.lookup, beq_eq_false_iff_ne.mpr hk, hw]⟩

theorem listLookupMemPair {β : Type} {l : List (String × β)} {k : String} {v : β}
    (h : List.lookup k l = some v) : (k, v) ∈ l := by
  induction l with
  | nil => simp [List.lookup] at h
  | cons kv t ih =>
    cases kv with
    | mk k₁ v₁ =>
      by_cases hk : k = k₁
      · simp only [List.lookup, hk, beq_self_eq_true] at h
        rw [List.mem_cons, hk]
        exact Or.inl (by rw [Option.some.inj h])
      · simp only [List.lookup, beq_eq_false_iff_ne.mpr hk] at h
        exact List.mem_cons_of_mem _ (ih h)

theorem foldlM_ok {α β : Type} (f : β → α → Except PyErr β) :
    ∀ (l : List α) (init : β), (∀ b a, a ∈ l → ∃ b', f b a = .ok b') →
    ∃ r, List.foldlM f init l = .ok r := by
  intro l
  induction l with
  | nil => intro init _; exact ⟨init, rfl⟩
  | cons x t ih =>
    intro init h
    rcases h init x (List.mem_cons_self x t) with ⟨b', hb'⟩
    rw [List.foldlM_cons, bindOkFwd hb']
    exact ih b' (fun b a ha => h b a (List.mem_cons_of_mem _ ha))

theorem foldlMBindOk {α β γ : Type} (f : β → α → Except PyErr β) (l : List α) (init : β)
    (k : β → Except PyErr γ)
    (hf : ∀ b a, a ∈ l → ∃ b', f b a = .ok b')
    (hk : ∀ b, ∃ c, k b = .ok c) :
    ∃ c, (List.foldlM f init l >>= k) = .ok c := by
  rcases foldlM_ok f l init hf with ⟨r, hr⟩
  rcases hk r with ⟨c, hc⟩
  exact ⟨c, by rw [bindOkFwd hr, hc]⟩

theorem mapMStrSome (l : List Json) (h : ∀ x ∈ l, ∃ s, x = Json.str s) :
    ∃ strs, l.mapM (fun j => match j with | Json.str s => some s | _ => none) =
      some strs := by
  induction l with
  | nil => exact ⟨[], rfl⟩
  | cons x t ih =>
    rcases h x (List.mem_cons_self x t) with ⟨s, hs⟩
    rcases ih (fun y hy => h y (List.mem_cons_of_mem _ hy)) with ⟨strs, hstrs⟩
    refine ⟨s :: strs, ?_⟩
    rw [List.mapM_cons, hs, hstrs]
    rfl

theorem pySortedArrEq (xs : JsonList) : pySorted (Json.arr xs) =
    (match xs.toList.mapM (fun j => match j with | Json.str s => some s | _ => none) with
     | some strs => Except.ok (Json.mkArr ((sortStrings strs).map Json.str))
     | none =>
       match xs.toList.mapM (fun j => match j with | Json.num n => some n | _ => none) with
       | some ns => Except.ok (Json.mkArr ((sortInts ns).map Json.num))
       | none => Except.error (PyErr.typeError "unorderable types in sorted")) := rfl

theorem pySorted_ok_strs (l : List Json) (h : ∀ x ∈ l, ∃ s, x = Json.str s) :
    ∃ r, pySorted (Json.mkArr l) = .ok r := by
  rcases mapMStrSome l h with ⟨strs, hstrs⟩
  rw [show Json.mkArr l = Json.arr (JsonList.ofList l) from rfl, pySortedArrEq,
    JsonList.toList_ofList, hstrs]
  exact ⟨_, rfl⟩

theorem pySetEArrEq (xs : JsonList) : pySetE (Json.arr xs) =
    (if xs.toList.all jsonHashable then Except.ok xs.toList.dedup
     else Except.error (PyErr.typeError "unhashable type")) := rfl

theorem pySetE_arr_strs (xs : JsonList) (h : ∀ x ∈ xs.toList, ∃ s, x = Json.str s) :
    pySetE (Json.arr xs) = .ok xs.toList.dedup := by
  rw [pySetEArrEq, if_pos]
  rw [List.all_eq_true]
  intro x hx
  rcases h x hx with ⟨s, rfl⟩
  rfl

theorem snapshotWF_parts {o : Json} (h : snapshotWF o = true) :
    ∃ oes : JsonEntries, o = .obj oes ∧ o.truthy = true ∧
      oes.hasKey "timestamp" = true ∧
      (∃ hs : JsonEntries, (oes.lookup "signature_hashes").getD (Json.mkObj []) = .obj hs) ∧
      (∃ ad : JsonEntries, (oes.lookup "api_data").getD (Json.mkObj []) = .obj ad ∧
        (∃ pes : JsonEntries, (ad.lookup "public_api").getD (Json.mkObj []) = .obj pes ∧
          ∀ kv ∈ pes.toList, wfElement kv.2 = true) ∧
        (∃ des : JsonEntries, (ad.lookup "docstrings").getD (Json.mkObj []) = .obj des ∧
          ∀ kv ∈ des.toList, ∃ ds, kv.2 = .obj ds)) := by
  cases o with
  | obj oes =>
    simp only [snapshotWF, Bool.and_eq_true] at h
    obtain ⟨⟨⟨htr, hts⟩, hsh⟩, had⟩ := h
    refine ⟨oes, rfl, htr, hts, ?_, ?_⟩
    · cases hl : oes.lookup "signature_hashes" with
      | none => exact ⟨.nil, by simp [hl, Json.mkObj, JsonEntries.ofList]⟩
      | some v =>
        rw [hl] at hsh
        cases v with
        | obj hs => exact ⟨hs, by simp [hl]⟩
        | null => exact absurd hsh (by simp)
        | bool _ => exact absurd hsh (by simp)
        | num _ => exact absurd hsh (by simp)
        | str _ => exact absurd hsh (by simp)
        | arr _ => exact absurd hsh (by simp)
    · cases hl : oes.lookup "api_data" with
      | none =>
        refine ⟨.nil, by simp [hl, Json.mkObj, JsonEntries.ofList], ?_, ?_⟩
        · exact ⟨.nil, by simp [JsonEntries.lookup, Json.mkObj, JsonEntries.ofList],
            by simp [JsonEntries.toList]⟩
        · exact ⟨.nil, by simp [JsonEntries.lookup, Json.mkObj, JsonEntries.ofList],
            by simp [JsonEntries.toList]⟩
      | some v =>
        rw [hl] at had
        cases v with
        | obj ad =>
          simp only [Bool.and_eq_true] at had
          obtain ⟨hpub, hdoc⟩ := had
          refine ⟨ad, by simp [hl], ?_, ?_⟩
          · cases hp : ad.lookup "public_api" with
            | none => exact ⟨.nil, by simp [hp, Json.mkObj, JsonEntries.ofList],
                by simp [JsonEntries.toList]⟩
            | some pv =>
              rw [hp] at hpub
              cases pv with
              | obj pes =>
                refine ⟨pes, by simp [hp], ?_⟩
                intro kv hkv
                rw [List.all_eq_true] at hpub
                exact hpub kv hkv
              | null => exact absurd hpub (by simp)
              | bool _ => exact absurd hpub (by simp)
              | num _ => exact absurd hpub (by simp)
              | str _ => exact absurd hpub (by simp)
              | arr _ => exact absurd hpub (by simp)
          · cases hp : ad.lookup "docstrings" with
            | none => exact ⟨.nil, by simp [hp, Json.mkObj, JsonEntries.ofList],
                by simp [JsonEntries.toList]⟩
            | some pv =>
              rw [hp] at hdoc
              cases pv with
              | obj des =>
                refine ⟨des, by simp [hp], ?_⟩
                intro kv hkv
                rw [List.all_eq_true] at hdoc
                have hv := hdoc kv hkv
                cases hkk : kv.2 with
                | obj ds => exact ⟨ds, rfl⟩
                | null => rw [hkk] at hv; exact absurd hv (by simp)
                | bool _ => rw [hkk] at hv; exact absurd hv (by simp)
                | num _ => rw [hkk] at hv; exact absurd hv (by simp)
                | str _ => rw [hkk] at hv; exact absurd hv (by simp)
                | arr _ => rw [hkk] at hv; exact absurd hv (by simp)
              | null => exact absurd hdoc (by simp)
              | bool _ => exact absurd hdoc (by simp)
              | num _ => exact absurd hdoc (by simp)
              | str _ => exact absurd hdoc (by simp)
              | arr _ => exact absurd hdoc (by simp)
        | null => exact absurd had (by simp)
        | bool _ => exact absurd had (by simp)
        | num _ => exact absurd had (by simp)
        | str _ => exact absurd had (by simp)
        | arr _ => exact absurd had (by simp)
  | null => exact absurd h (by simp [snapshotWF])
  | bool _ => exact absurd h (by simp [snapshotWF])
  | num _ => exact absurd h (by simp [snapshotWF])
  | str _ => exact absurd h (by simp [snapshotWF])
  | arr _ => exact absurd h (by simp [snapshotWF])

theorem wfElement_parts {el : Json} (h : wfElement el = true) :
    ∃ es : JsonEntries, el = .obj es ∧
      (∃ bxs : JsonList, (es.lookup "base_classes").getD (Json.mkArr []) = .arr bxs ∧
        ∀ x ∈ bxs.toList, ∃ s, x = Json.str s) ∧
      (∃ ps : JsonEntries, (es.lookup "parameters").getD (Json.mkObj []) = .obj ps ∧
        ∀ kv ∈ ps.toList, ∃ pd, kv.2 = .obj pd) := by
  cases el with
  | obj es =>
    simp only [wfElement, Bool.and_eq_true] at h
    obtain ⟨hbc, hps⟩ := h
    refine ⟨es, rfl, ?_, ?_⟩
    · cases hl : es.lookup "base_classes" with
      | none => exact ⟨.nil, by simp [hl, Json.mkArr, JsonList.ofList],
          by simp [JsonList.toList]⟩
      | some v =>
        rw [hl] at hbc
        cases v with
        | arr xs =>
          refine ⟨xs, by simp [hl], ?_⟩
          intro x hx
          have hbc' : xs.toList.all
              (fun b => match b with | Json.str _ => true | _ => false) = true := hbc
          rw [List.all_eq_true] at hbc'
          have hv := hbc' x hx
          cases hxx : x with
          | str s => exact ⟨s, rfl⟩
          | null => rw [hxx] at hv; exact absurd hv (by simp)
          | bool _ => rw [hxx] at hv; exact absurd hv (by simp)
          | num _ => rw [hxx] at hv; exact absurd hv (by simp)
          | arr _ => rw [hxx] at hv; exact absurd hv (by simp)
          | obj _ => rw [hxx] at hv; exact absurd hv (by simp)
        | null => exact absurd hbc (by simp)
        | bool _ => exact absurd hbc (by simp)
        | num _ => exact absurd hbc (by simp)
        | str _ => exact absurd hbc (by simp)
        | obj _ => exact absurd hbc (by simp)
    · cases hl : es.lookup "parameters" with
      | none => exact ⟨.nil, by simp [hl, Json.mkObj, JsonEntries.ofList],
          by simp [JsonEntries.toList]⟩
      | some v =>
        rw [hl] at hps
        cases v with
        | obj ps =>
          refine ⟨ps, by simp [hl], ?_⟩
          intro kv hkv
          have hps' : ps.toList.all
              (fun kv => match kv.2 with | Json.obj _ => true | _ => false) = true := hps
          rw [List.all_eq_true] at hps'
          have hv := hps' kv hkv
          cases hkk : kv.2 with
          | obj pd => exact ⟨pd, rfl⟩
          | null => rw [hkk] at hv; exact absurd hv (by simp)
          | bool _ => rw [hkk] at hv; exact absurd hv (by simp)
          | num _ => rw [hkk] at hv; exact absurd hv (by simp)
          | str _ => rw [hkk] at hv; exact absurd hv (by simp)
          | arr _ => rw [hkk] at hv; exact absurd hv (by simp)
        | null => exact absurd hps (by simp)
        | bool _ => exact absurd hps (by simp)
        | num _ => exact absurd hps (by simp)
        | str _ => exact absurd hps (by simp)
        | arr _ => exact absurd hps (by simp)
  | null => exact absurd h (by simp [wfElement])
  | bool _ => exact absurd h (by simp [wfElement])
  | num _ => exact absurd h (by simp [wfElement])
  | str _ => exact absurd h (by simp [wfElement])
  | arr _ => exact absurd h (by simp [wfElement])

theorem pickLatest_mem (l : List FileEnt) : ∀ (acc : FileEnt),
    (l.foldl (fun acc e => if acc.mtime < e.mtime then e else acc) acc) = acc ∨
    (l.foldl (fun acc e => if acc.mtime < e.mtime then e else acc) acc) ∈ l := by
  induction l with
  | nil => intro acc; exact Or.inl rfl
  | cons x t ih =>
    intro acc
    rw [List.foldl_cons]
    by_cases hx : acc.mtime < x.mtime
    · rw [if_pos hx]
      rcases ih x with h | h
      · exact Or.inr (by rw [h]; exact List.mem_cons_self x t)
      · exact Or.inr (List.mem_cons_of_mem _ h)
    · rw [if_neg hx]
      rcases ih acc with h | h
      · exact Or.inl h
      · exact Or.inr (List.mem_cons_of_mem _ h)

theorem loadLatest_mem {fs : SnapshotStore} {version : String} {j : Json}
    (h : loadLatestSnapshot fs version = some j) : ∃ e ∈ fs, e.content = j := by
  unfold loadLatestSnapshot at h
  cases hf : fs.filter (fun e => snapshotGlobMatch version e.name) with
  | nil => rw [hf] at h; exact absurd h (by simp)
  | cons f rest =>
    rw [hf] at h
    have hj : (rest.foldl (fun acc e => if acc.mtime < e.mtime then e else acc) f).content
        = j := by
      exact Option.some.inj h
    have hmemf : ∀ e, e ∈ f :: rest → e ∈ fs := by
      intro e he
      rw [← hf] at he
      exact (List.mem_filter.mp he).1
    rcases pickLatest_mem rest f with hp | hp
    · exact ⟨f, hmemf f (List.mem_cons_self f rest), by rw [← hp, hj]⟩
    · exact ⟨_, hmemf _ (List.mem_cons_of_mem _ hp), hj⟩

theorem compareClassChanges_ok {oc nc : Json} (hoc : wfElement oc = true)
    (hnc : wfElement nc = true) : ∃ r, compareClassChangesE oc nc = .ok r := by
  rcases wfElement_parts hoc with ⟨oes, rfl, ⟨oxs, hob, hobs⟩, -⟩
  rcases wfElement_parts hnc with ⟨nes, rfl, ⟨nxs, hnb, hnbs⟩, -⟩
  have h1 : pyGet (Json.obj oes) "base_classes" (Json.mkArr []) = .ok (.arr oxs) := by
    simp [pyGet, hob]
  have h2 : pyGet (Json.obj nes) "base_classes" (Json.mkArr []) = .ok (.arr nxs) := by
    simp [pyGet, hnb]
  have h3 := pySetE_arr_strs oxs hobs
  have h4 := pySetE_arr_strs nxs hnbs
  unfold compareClassChangesE
  simp only [bindOkFwd h1, bindOkFwd h2, bindOkFwd h3, bindOkFwd h4]
  split
  · exact ⟨_, rfl⟩
  · have hda : ∀ x ∈ setDiffJson nxs.toList.dedup oxs.toList.dedup, ∃ s, x = Json.str s :=
      fun x hx => hnbs x (List.mem_dedup.mp (List.mem_filter.mp hx).1)
    have hdr : ∀ x ∈ setDiffJson oxs.toList.dedup nxs.toList.dedup, ∃ s, x = Json.str s :=
      fun x hx => hobs x (List.mem_dedup.mp (List.mem_filter.mp hx).1)
    rcases pySorted_ok_strs _ hda with ⟨ab, hab⟩
    rcases pySorted_ok_strs _ hdr with ⟨rb, hrb⟩
    simp only [bindOkFwd hab, bindOkFwd hrb]
    exact ⟨_, rfl⟩

theorem compareFunctionChanges_ok {of nf : Json} (hof : wfElement of = true)
    (hnf : wfElement nf = true) : ∃ r, compareFunctionChangesE of nf = .ok r := by
  rcases wfElement_parts hof with ⟨oes, rfl, -, ⟨ops, hops, hopv⟩⟩
  rcases wfElement_parts hnf with ⟨nes, rfl, -, ⟨nps, hnps, hnpv⟩⟩
  have h1 : pyGet (Json.obj oes) "parameters" (Json.mkObj []) = .ok (.obj ops) := by
    simp [pyGet, hops]
  have h2 : pyGet (Json.obj nes) "parameters" (Json.mkObj []) = .ok (.obj nps) := by
    simp [pyGet, hnps]
  have h3 : pyItems (Json.obj ops) = .ok ops.toList := rfl
  have h4 : pyItems (Json.obj nps) = .ok nps.toList := rfl
  unfold compareFunctionChangesE
  simp only [bindOkFwd h1, bindOkFwd h2, bindOkFwd h3, bindOkFwd h4]
  apply foldlMBindOk
  · intro b pname hmem
    have hmem' := List.mem_filter.mp hmem
    have hold : pname ∈ ops.toList.map Prod.fst := List.mem_dedup.mp hmem'.1
    have hnew : pname ∈ nps.toList.map Prod.fst :=
      List.mem_dedup.mp (of_decide_eq_true hmem'.2)
    rcases listLookupSome hold with ⟨ov, hov⟩
    rcases listLookupSome hnew with ⟨nv, hnv⟩
    rcases hopv (pname, ov) (listLookupMemPair hov) with ⟨opd, hopd⟩
    rcases hnpv (pname, nv) (listLookupMemPair hnv) with ⟨npd, hnpd⟩
    simp only at hopd hnpd
    rw [hopd] at hov
    rw [hnpd] at hnv
    dsimp only
    rw [hov, hnv]
    exact ⟨_, rfl⟩
  · intro b
    exact ⟨_, rfl⟩

theorem compareSignaturesOfSnapshots_ok {o n : Json} (ho : snapshotWF o = true)
    (hn : snapshotWF n = true) : ∃ sc, compareSignaturesOfSnapshotsE o n = .ok sc := by
  rcases snapshotWF_parts ho with ⟨oes, rfl, -, -, ⟨ohs, hohs⟩, -⟩
  rcases snapshotWF_parts hn with ⟨nes, rfl, -, -, ⟨nhs, hnhs⟩, -⟩
  have h1 : pyGet (Json.obj oes) "signature_hashes" (Json.mkObj []) = .ok (.obj ohs) := by
    simp [pyGet, hohs]
  have h2 : pyGet (Json.obj nes) "signature_hashes" (Json.mkObj []) = .ok (.obj nhs) := by
    simp [pyGet, hnhs]
  have h3 : pyItems (Json.obj ohs) = .ok ohs.toList := rfl
  have h4 : pyItems (Json.obj nhs) = .ok nhs.toList := rfl
  unfold compareSignaturesOfSnapshotsE
  simp only [bindOkFwd h1, bindOkFwd h2, bindOkFwd h3, bindOkFwd h4]
  exact ⟨_, rfl⟩

theorem compareApiStructures_ok {o n : Json} (ho : snapshotWF o = true)
    (hn : snapshotWF n = true) : ∃ ac, compareApiStructuresE o n = .ok ac := by
  rcases snapshotWF_parts ho with ⟨oes, rfl, -, -, -, ⟨oad, hoad, ⟨opes, hopes, hopv⟩, -⟩⟩
  rcases snapshotWF_parts hn with ⟨nes, rfl, -, -, -, ⟨nad, hnad, ⟨npes, hnpes, hnpv⟩, -⟩⟩
  have h1 : pyGet (Json.obj oes) "api_data" (Json.mkObj []) = .ok (.obj oad) := by
    simp [pyGet, hoad]
  have h2 : pyGet (Json.obj oad) "public_api" (Json.mkObj []) = .ok (.obj opes) := by
    simp [pyGet, hopes]
  have h3 : pyGet (Json.obj nes) "api_data" (Json.mkObj []) = .ok (.obj nad) := by
    simp [pyGet, hnad]
  have h4 : pyGet (Json.obj nad) "public_api" (Json.mkObj []) = .ok (.obj npes) := by
    simp [pyGet, hnpes]
  have h5 : pyItems (Json.obj opes) = .ok opes.toList := rfl
  have h6 : pyItems (Json.obj npes) = .ok npes.toList := rfl
  unfold compareApiStructuresE
  simp only [bindOkFwd h1, bindOkFwd h2, bindOkFwd h3, bindOkFwd h4,
    bindOkFwd h5, bindOkFwd h6]
  apply foldlM_ok
  intro changes ename hmem
  have hmem' := List.mem_filter.mp hmem
  have hold : ename ∈ opes.toList.map Prod.fst := List.mem_dedup.mp hmem'.1
  have hnew : ename ∈ npes.toList.map Prod.fst := of_decide_eq_true hmem'.2
  rcases listLookupSome hold with ⟨ov, hov⟩
  rcases listLookupSome hnew with ⟨nv, hnv⟩
  have hwo : wfElement ov = true := hopv (ename, ov) (listLookupMemPair hov)
  have hwn : wfElement nv = true := hnpv (ename, nv) (listLookupMemPair hnv)
  rcases wfElement_parts hwo with ⟨ovs, hoveq, -, -⟩
  rcases wfElement_parts hwn with ⟨nvs, hnveq, -, -⟩
  rw [hoveq] at hov hwo
  rw [hnveq] at hnv hwn
  rw [hov, hnv]
  dsimp only [Option.getD]
  have g1 : pyGet (Json.obj ovs) "type" (Json.str "unknown") =
      .ok ((ovs.lookup "type").getD (.str "unknown")) := rfl
  have g2 : pyGet (Json.obj nvs) "type" (Json.str "unknown") =
      .ok ((nvs.lookup "type").getD (.str "unknown")) := rfl
  have g3 : pyGet (Json.obj ovs) "module" (Json.str "unknown") =
      .ok ((ovs.lookup "module").getD (.str "unknown")) := rfl
  have g4 : pyGet (Json.obj nvs) "module" (Json.str "unknown") =
      .ok ((nvs.lookup "module").getD (.str "unknown")) := rfl
  simp only [bindOkFwd g1, bindOkFwd g2, bindOkFwd g3, bindOkFwd g4]
  rcases compareClassChanges_ok hwo hwn with ⟨rc, hrc⟩
  rcases compareFunctionChanges_ok hwo hwn with ⟨rf, hrf⟩
  split
  · simp only [bindOkFwd hrc]
    exact ⟨_, rfl⟩
  · split
    · simp only [bindOkFwd hrf]
      exact ⟨_, rfl⟩
    · exact ⟨_, rfl⟩

theorem compareDocumentation_ok {o n : Json} (ho : snapshotWF o = true)
    (hn : snapshotWF n = true) : ∃ dc, compareDocumentationE o n = .ok dc := by
  rcases snapshotWF_parts ho with ⟨oes, rfl, -, -, -, ⟨oad, hoad, -, ⟨odes, hodes, hodv⟩⟩⟩
  rcases snapshotWF_parts hn with ⟨nes, rfl, -, -, -, ⟨nad, hnad, -, ⟨ndes, hndes, hndv⟩⟩⟩
  have h1 : pyGet (Json.obj oes) "api_data" (Json.mkObj []) = .ok (.obj oad) := by
    simp [pyGet, hoad]
  have h2 : pyGet (Json.obj oad) "docstrings" (Json.mkObj []) = .ok (.obj odes) := by
    simp [pyGet, hodes]
  have h3 : pyGet (Json.obj nes) "api_data" (Json.mkObj []) = .ok (.obj nad) := by
    simp [pyGet, hnad]
  have h4 : pyGet (Json.obj nad) "docstrings" (Json.mkObj []) = .ok (.obj ndes) := by
    simp [pyGet, hndes]
  have h5 : pyItems (Json.obj odes) = .ok odes.toList := rfl
  have h6 : pyItems (Json.obj ndes) = .ok ndes.toList := rfl
  unfold compareDocumentationE
  simp only [bindOkFwd h1, bindOkFwd h2, bindOkFwd h3, bindOkFwd h4,
    bindOkFwd h5, bindOkFwd h6]
  apply foldlMBindOk
  · intro acc ename hmem
    have hmem' := List.mem_filter.mp hmem
    have hold : ename ∈ odes.toList.map Prod.fst := List.mem_dedup.mp hmem'.1
    have hnew : ename ∈ ndes.toList.map Prod.fst :=
      List.mem_dedup.mp (of_decide_eq_true hmem'.2)
    rcases listLookupSome hold with ⟨ov, hov⟩
    rcases listLookupSome hnew with ⟨nv, hnv⟩
    rcases hodv (ename, ov) (listLookupMemPair hov) with ⟨ods, hods⟩
    rcases hndv (ename, nv) (listLookupMemPair hnv) with ⟨nds, hnds⟩
    simp only at hods hnds
    rw [hods] at hov
    rw [hnds] at hnv
    rw [hov, hnv]
    exact ⟨_, rfl⟩
  · intro b
    exact ⟨_, rfl⟩

theorem compareVersions_ok_of_loads {fs : SnapshotStore} {ov nv : String}
    (cts tsc : String) {o n : Json}
    (hwf : ∀ e ∈ fs, snapshotWF e.content = true)
    (ho : loadLatestSnapshot fs ov = some o) (hn : loadLatestSnapshot fs nv = some n) :
    ∃ r, compareVersionsE fs ov nv cts tsc = .ok r := by
  have hwo : snapshotWF o = true := by
    rcases loadLatest_mem ho with ⟨e, he, hc⟩
    rw [← hc]
    exact hwf e he
  have hwn : snapshotWF n = true := by
    rcases loadLatest_mem hn with ⟨e, he, hc⟩
    rw [← hc]
    exact hwf e he
  rcases snapshotWF_parts hwo with ⟨oes, hoe, htro, htso, -, -⟩
  rcases snapshotWF_parts hwn with ⟨nes, hne, htrn, htsn, -, -⟩
  rcases lookup_isSome_of_mem_keys ((JsonEntries.hasKey_iff "timestamp" oes).mp htso)
    with ⟨otv, hotv⟩
  rcases lookup_isSome_of_mem_keys ((JsonEntries.hasKey_iff "timestamp" nes).mp htsn)
    with ⟨ntv, hntv⟩
  have hm1 : (match loadLatestSnapshot fs ov with
    | some j => if j.truthy then Except.ok j else
        Except.error (PyErr.valueError ("No snapshot found for version " ++ ov))
    | none => Except.error (PyErr.valueError ("No snapshot found for version " ++ ov)))
      = Except.ok o := by
    rw [ho]
    simp [htro]
  have hm2 : (match loadLatestSnapshot fs nv with
    | some j => if j.truthy then Except.ok j else
        Except.error (PyErr.valueError ("No snapshot found for version " ++ nv))
    | none => Except.error (PyErr.valueError ("No snapshot found for version " ++ nv)))
      = Except.ok n := by
    rw [hn]
    simp [htrn]
  have hi1 : pyIndex o "timestamp" = .ok otv := by
    rw [hoe]
    simp [pyIndex, hotv]
  have hi2 : pyIndex n "timestamp" = .ok ntv := by
    rw [hne]
    simp [pyIndex, hntv]
  rcases compareSignaturesOfSnapshots_ok hwo hwn with ⟨sc, hsc⟩
  rcases compareApiStructures_ok hwo hwn with ⟨ac, hac⟩
  rcases compareDocumentation_ok hwo hwn with ⟨dc, hdc⟩
  unfold compareVersionsE
  simp only [bindOkFwd hm1, bindOkFwd hm2, bindOkFwd hi1, bindOkFwd hi2,
    bindOkFwd hsc, bindOkFwd hac, bindOkFwd hdc]
  exact ⟨_, rfl⟩

/-- C7: under well-formed snapshot contents, `compare_versions` raises a
`ValueError`-class error exactly when one of the two versions has no
loadable snapshot, and returns a diff result (with the diff filename)
whenever both snapshots load. -/
theorem C7_compare_versions_errors (fs : SnapshotStore) (ov nv cts tsc : String)
    (hwf : ∀ e ∈ fs, snapshotWF e.content = true) :
    ((∃ m, compareVersionsE fs ov nv cts tsc = .error (.valueError m)) ↔
      (loadLatestSnapshot fs ov = none ∨ loadLatestSnapshot fs nv = none)) ∧
    (∀ o n, loadLatestSnapshot fs ov = some o → loadLatestSnapshot fs nv = some n →
      ∃ d fname, compareVersionsE fs ov nv cts tsc = .ok (d, fname)) := by
  have hok : ∀ o n, loadLatestSnapshot fs ov = some o → loadLatestSnapshot fs nv = some n →
      ∃ d fname, compareVersionsE fs ov nv cts tsc = .ok (d, fname) := by
    intro o n ho hn
    rcases compareVersions_ok_of_loads cts tsc hwf ho hn with ⟨r, hr⟩
    exact ⟨r.1, r.2, by rw [hr]⟩
  refine ⟨⟨?_, ?_⟩, hok⟩
  · rintro ⟨m, hm⟩
    by_cases ho : loadLatestSnapshot fs ov = none
    · exact Or.inl ho
    · by_cases hn : loadLatestSnapshot fs nv = none
      · exact Or.inr hn
      · rcases Option.ne_none_iff_exists'.mp ho with ⟨o, ho'⟩
        rcases Option.ne_none_iff_exists'.mp hn with ⟨n, hn'⟩
        rcases hok o n ho' hn' with ⟨d, fname, hr⟩
        rw [hr] at hm
        exact absurd hm (by simp)
  · intro h
    rcases h with ho | hn
    · refine ⟨"No snapshot found for version " ++ ov, ?_⟩
      unfold compareVersionsE
      rw [ho]
      rfl
    · cases ho : loadLatestSnapshot fs ov with
      | none =>
        refine ⟨"No snapshot found for version " ++ ov, ?_⟩
        unfold compareVersionsE
        rw [ho]
        rfl
      | some o =>
        have hwo : snapshotWF o = true := by
          rcases loadLatest_mem ho with ⟨e, he, hc⟩
          rw [← hc]
          exact hwf e he
        have htro : o.truthy = true := by
          rcases snapshotWF_parts hwo with ⟨oes, hoe, htro, -⟩
          rw [hoe] at htro ⊢
          exact htro
        have hm1 : (match loadLatestSnapshot fs ov with
          | some j => if j.truthy then Except.ok j else
              Except.error (PyErr.valueError ("No snapshot found for version " ++ ov))
          | none => Except.error (PyErr.valueError ("No snapshot found for version " ++ ov)))
            = Except.ok o := by
          rw [ho]
          simp [htro]
        refine ⟨"No snapshot found for version " ++ nv, ?_⟩
        unfold compareVersionsE
        rw [bindOkFwd hm1, hn]
        rfl

set_option maxRecDepth 100000 in
theorem C7_compare_versions_errors_witness :
    (∀ e ∈ c7store, snapshotWF e.content = true) ∧
    ((∃ m, compareVersionsE c7store "1.0" "2.0" "t" "ts" = .error (.valueError m)) ↔
      (loadLatestSnapshot c7store "1.0" = none ∨ loadLatestSnapshot c7store "2.0" = none)) :=
  ⟨by decide, (C7_compare_versions_errors c7store "1.0" "2.0" "t" "ts" (by decide)).1⟩

theorem stubExists_stubWrite_self (fs : StubStore) (p c : String) :
    stubExists (stubWrite fs p c) p = true := by
  simp [stubExists, stubWrite, List.any_append]

theorem stubExists_stubWrite_mono {fs : StubStore} {q : String}
    (h : stubExists fs q = true) (p c : String) :
    stubExists (stubWrite fs p c) q = true := by
  by_cases hq : q = p
  · rw [hq]
    exact stubExists_stubWrite_self fs p c
  · rw [stubExists, List.any_eq_true] at h
    rcases h with ⟨e, he, heq⟩
    rw [stubExists, stubWrite, List.any_append, Bool.or_eq_true]
    refine Or.inl ?_
    rw [List.any_eq_true]
    refine ⟨e, ?_, heq⟩
    rw [List.mem_filter]
    refine ⟨he, ?_⟩
    have heq' : e.1 = q := by
      have := of_decide_eq_true heq
      exact this
    simp [heq', hq]

theorem c8mono (dir : String) : ∀ (its : List (String × Json))
    (acc r : StubStore × List (String × String)),
    its.foldlM (fun acc kv => do
      let etype ← pyGet kv.2 "type" (.str "unknown")
      let fpath := dir ++ "/api_reference/" ++ safeName kv.1 ++ "_" ++
        pyStr etype ++ ".md"
      if stubExists acc.1 fpath && !false then
        pure acc
      else do
        let content := generateElementStub kv.1 kv.2 (pyStr etype)
        pure (stubWrite acc.1 fpath content, acc.2 ++ [(kv.1, fpath)])) acc = .ok r →
    ∀ q, stubExists acc.1 q = true → stubExists r.1 q = true := by
  intro its
  induction its with
  | nil =>
    intro acc r h q hq
    rw [List.foldlM_nil] at h
    rw [← Except.ok.inj h]
    exact hq
  | cons kv t ih =>
    intro acc r h q hq
    rw [List.foldlM_cons] at h
    rcases exceptBindOk h with ⟨acc', hacc', hrest⟩
    rcases exceptBindOk hacc' with ⟨et, het, hbr⟩
    simp only [Bool.not_false, Bool.and_true] at hbr
    refine ih acc' r hrest q ?_
    split at hbr
    · rw [← Except.ok.inj hbr]
      exact hq
    · rw [← Except.ok.inj hbr]
      exact stubExists_stubWrite_mono hq _ _

theorem c8post (dir : String) : ∀ (its : List (String × Json))
    (acc r : StubStore × List (String × String)),
    its.foldlM (fun acc kv => do
      let etype ← pyGet kv.2 "type" (.str "unknown")
      let fpath := dir ++ "/api_reference/" ++ safeName kv.1 ++ "_" ++
        pyStr etype ++ ".md"
      if stubExists acc.1 fpath && !false then
        pure acc
      else do
        let content := generateElementStub kv.1 kv.2 (pyStr etype)
        pure (stubWrite acc.1 fpath content, acc.2 ++ [(kv.1, fpath)])) acc = .ok r →
    ∀ kv ∈ its, ∃ et, pyGet kv.2 "type" (.str "unknown") = .ok et ∧
      stubExists r.1 (dir ++ "/api_reference/" ++ safeName kv.1 ++ "_" ++
        pyStr et ++ ".md") = true := by
  intro its
  induction its with
  | nil => intro acc r _ kv hkv; exact absurd hkv (by simp)
  | cons kv₀ t ih =>
    intro acc r h kv hkv
    rw [List.foldlM_cons] at h
    rcases exceptBindOk h with ⟨acc', hacc', hrest⟩
    rcases List.mem_cons.mp hkv with hkv | hkv
    · rcases exceptBindOk hacc' with ⟨et, het, hbr⟩
      subst hkv
      simp only [Bool.not_false, Bool.and_true] at hbr
      refine ⟨et, het, ?_⟩
      refine c8mono dir t acc' r hrest _ ?_
      split at hbr
      · rename_i hcond
        rw [← Except.ok.inj hbr]
        exact hcond
      · rw [← Except.ok.inj hbr]
        exact stubExists_stubWrite_self _ _ _
    · exact ih acc' r hrest kv hkv

theorem c8skip (dir : String) : ∀ (its : List (String × Json))
    (acc : StubStore × List (String × String)),
    (∀ kv ∈ its, ∃ et, pyGet kv.2 "type" (.str "unknown") = .ok et ∧
      stubExists acc.1 (dir ++ "/api_reference/" ++ safeName kv.1 ++ "_" ++
        pyStr et ++ ".md") = true) →
    its.foldlM (fun acc kv => do
      let etype ← pyGet kv.2 "type" (.str "unknown")
      let fpath := dir ++ "/api_reference/" ++ safeName kv.1 ++ "_" ++
        pyStr etype ++ ".md"
      if stubExists acc.1 fpath && !false then
        pure acc
      else do
        let content := generateElementStub kv.1 kv.2 (pyStr etype)
        pure (stubWrite acc.1 fpath content, acc.2 ++ [(kv.1, fpath)])) acc = .ok acc := by
  intro its
  induction its with
  | nil => intro acc _; rfl
  | cons kv₀ t ih =>
    intro acc h
    rcases h kv₀ (List.mem_cons_self kv₀ t) with ⟨et, het, hex⟩
    have h1 : (fun (acc : StubStore × List (String × String)) (kv : String × Json) => do
        let etype ← pyGet kv.2 "type" (.str "unknown")
        let fpath := dir ++ "/api_reference/" ++ safeName kv.1 ++ "_" ++
          pyStr etype ++ ".md"
        if stubExists acc.1 fpath && !false then
          pure acc
        else do
          let content := generateElementStub kv.1 kv.2 (pyStr etype)
          pure (stubWrite acc.1 fpath content, acc.2 ++ [(kv.1, fpath)])) acc kv₀
        = .ok acc := by
      simp only [bindOkFwd het, Bool.not_false, Bool.and_true, hex, if_true]
      rfl
    rw [List.foldlM_cons, bindOkFwd h1]
    exact ih acc (fun kv hkv => h kv (List.mem_cons_of_mem _ hkv))

theorem c8force (dir : String) : ∀ (its : List (String × Json))
    (acc r : StubStore × List (String × String)),
    its.foldlM (fun acc kv => do
      let etype ← pyGet kv.2 "type" (.str "unknown")
      let fpath := dir ++ "/api_reference/" ++ safeName kv.1 ++ "_" ++
        pyStr etype ++ ".md"
      if stubExists acc.1 fpath && !true then
        pure acc
      else do
        let content := generateElementStub kv.1 kv.2 (pyStr etype)
        pure (stubWrite acc.1 fpath content, acc.2 ++ [(kv.1, fpath)])) acc = .ok r →
    r.2.map Prod.fst = acc.2.map Prod.fst ++ its.map Prod.fst := by
  intro its
  induction its with
  | nil =>
    intro acc r h
    rw [List.foldlM_nil] at h
    rw [← Except.ok.inj h]
    simp
  | cons kv t ih =>
    intro acc r h
    rw [List.foldlM_cons] at h
    rcases exceptBindOk h with ⟨acc', hacc', hrest⟩
    rcases exceptBindOk hacc' with ⟨et, het, hbr⟩
    simp only [Bool.not_true, Bool.and_false, Bool.false_eq_true, if_false] at hbr
    have hacc2 : acc'.2 = acc.2 ++ [(kv.1, dir ++ "/api_reference/" ++ safeName kv.1 ++
        "_" ++ pyStr et ++ ".md")] := by
      rw [← Except.ok.inj hbr]
    rw [ih acc' r hrest, hacc2]
    simp

/-- C8: with `force=false` a second `regenerate_all_stubs` run over the
same `api_data` writes nothing: the store is returned unchanged and the
generated-stub mapping is empty (every element is skipped because its
stub file already exists).  With `force=true`, every run rewrites every
element: the returned mapping names exactly the elements of
`public_api`, whatever the starting store. -/
theorem C8_regenerate_stubs_idempotent (fs : StubStore) (dir : String) (api : Json)
    (fs₁ : StubStore) (gen : List (String × String))
    (h : regenerateAllStubsE fs dir api false = .ok (fs₁, gen)) :
    regenerateAllStubsE fs₁ dir api false = .ok (fs₁, []) ∧
    (∀ fs' fs₂ gen₂ pa its, regenerateAllStubsE fs' dir api true = .ok (fs₂, gen₂) →
      pyGet api "public_api" (Json.mkObj []) = .ok pa → pyItems pa = .ok its →
      gen₂.map Prod.fst = its.map Prod.fst) := by
  unfold regenerateAllStubsE at h
  rcases exceptBindOk h with ⟨pa₀, hpa₀, h⟩
  rcases exceptBindOk h with ⟨its₀, hits₀, h⟩
  constructor
  · unfold regenerateAllStubsE
    simp only [bindOkFwd hpa₀, bindOkFwd hits₀]
    have hpost := c8post dir its₀ (fs, []) (fs₁, gen) h
    exact c8skip dir its₀ (fs₁, []) (fun kv hkv => hpost kv hkv)
  · intro fs' fs₂ gen₂ pa its h' hpa hits
    unfold regenerateAllStubsE at h'
    rcases exceptBindOk h' with ⟨pa', hpa', h'⟩
    rcases exceptBindOk h' with ⟨its', hits', h'⟩
    rw [hpa'] at hpa
    have hpaeq : pa' = pa := Except.ok.inj hpa
    subst hpaeq
    rw [hits'] at hits
    have hitseq : its' = its := Except.ok.inj hits
    subst hitseq
    have hg := c8force dir its' (fs', []) (fs₂, gen₂) h'
    simpa using hg

set_option maxRecDepth 200000 in
theorem C8_regenerate_stubs_idempotent_witness :
    regenerateAllStubsE [] "out" c8api false = .ok (c8run1.1, c8run1.2) ∧
    regenerateAllStubsE c8run1.1 "out" c8api false = .ok (c8run1.1, []) :=
  ⟨by decide,
   (C8_regenerate_stubs_idempotent [] "out" c8api c8run1.1 c8run1.2 (by decide)).1⟩

theorem C1_compare_signatures_witness :
    (("a" : String) ≠ "b") ∧
    (compareSignatures [("foo", "a")] [("foo", "b"), ("bar", "c")]).added = ["bar"] ∧
    (compareSignatures [("foo", "a")] [("foo", "b"), ("bar", "c")]).removed = [] ∧
    (compareSignatures [("foo", "a")] [("foo", "b"), ("bar", "c")]).modified = ["foo"] :=
  ⟨by decide, C1_compare_signatures.2.2 "a" "b" "c" (by decide)⟩

theorem C3_removal_classification_witness :
    (("collector_run" : String) ∈ ["collector_run"]) ∧
    (∃ c, c ∈ classifyRemovals ["collector_run"] ∧ c.element = "collector_run" ∧
      c.change_type = "removal" ∧ c.breaking = true ∧
      c.compatibility_impact = "breaking" ∧
      c.severity =
        (if corePatterns.any (fun p => strContainsSub (pyLower "collector_run") p)
          then "critical"
         else if strContainsSub (pyLower "collector_run") "deprecated" then "medium"
         else if pyStartsWith "collector_run" "_" then "high"
         else "critical")) :=
  ⟨by decide,
   C3_removal_classification.1 ["collector_run"] "collector_run" (by decide)⟩
